import Mathlib

/-!
Verification of the kubevirt per-node network-infrastructure configurator
against its natural-language specification.

Shallow embedding of the relevant Go sources:
- `pkg/virt-operator/install-strategy/ssc.go` (DNS resolv.conf parsing),
- `pkg/network/infraconfigurators/router.go` plus its sibling common file
  (router-mode pod network configurator, reserved ports),
- `pkg/virt-launcher/virtwrap/agent-poller/agent_parser.go` (guest-agent
  reply parsing and interface-status merging),
- `pkg/network/ndp/ndp.go` (router advertiser serve loop).

Modelling conventions:
- Go strings are Lean `String`, or `List Char` where character-level
  matching (regular expressions, substring search) must be reasoned about.
- Go slices are Lean `List`; `nil`-able results are `Option`.
- `net.IP` values are carried in their textual form: the code under
  verification only stores, compares and forwards them.
- Calls into the host (netlink, sysctl, iptables/nftables) are modelled as
  events recorded in a trace; their success or failure is supplied by an
  oracle, and a Go `error` result is `Option`/an error value.
- Calls into Go library code that is not part of the repository
  (`encoding/json` unmarshalling) are passed in as function parameters, so
  theorems quantify over every behaviour of the library.
- A Go runtime panic (e.g. indexing a `nil` regexp match) is a dedicated
  result constructor, distinct from an ordinary returned `error`.
-/

namespace ssc

/-- Textual form of a Go `net.IP` value. -/
abbrev IPStr := String

/-- Go `strings.HasPrefix` on character lists: `hasPref p s` is true iff
`p` is an initial segment of `s`. -/
def hasPref : List Char → List Char → Bool
  | [], _ => true
  | _ :: _, [] => false
  | p :: ps, s :: ss => p == s && hasPref ps ss

/-- Go `strings.Contains s pat` on character lists: `pat` occurs somewhere
inside `s`. -/
def containsSub (pat : List Char) : List Char → Bool
  | [] => hasPref pat []
  | c :: t => hasPref pat (c :: t) || containsSub pat t

/-- The literal `nameserver` keyword from ssc.go (`nameserverPrefix`). -/
def nameserverKw : String := "nameserver"

/-- The default IPv4 DNS server from ssc.go (`defaultIPv4DNS`). -/
def defaultIPv4DNS : IPStr := "8.8.8.8"

/-- The scan loop of `ParseNameservers` of ssc.go: a line starting with
`nameserver` is tried as IPv6 first, then as IPv4; other lines and
unparsable nameserver lines contribute nothing. -/
def parseNSLoop (pIPv6 pIPv4 : String → Option IPStr) :
    List String → List IPStr × List IPStr
  | [] => ([], [])
  | line :: rest =>
    let acc := parseNSLoop pIPv6 pIPv4 rest
    if hasPref nameserverKw.data line.data then
      match pIPv6 line with
      | some ns => (acc.1, ns :: acc.2)
      | none =>
        match pIPv4 line with
        | some ns => (ns :: acc.1, acc.2)
        | none => acc
    else acc

/-- `bufio.MaxScanTokenSize`: the scanner's 64 KiB token limit. A line
needing more than this many bytes in the buffer before its newline makes
`Scan` fail with `ErrTooLong`. -/
def maxScanTokenSize : Nat := 65536

/-- `dropCR` of bufio's `ScanLines` split function: strip one trailing
carriage return from a token. -/
def dropCR (l : List Char) : List Char :=
  match l.getLast? with
  | some c => if c == '\r' then l.dropLast else l
  | none => l

/-- The state of the `bufio.Scanner`/`ScanLines` byte machine: the tokens
already produced (reversed), the bytes of the current token (reversed,
with their count), and whether the scan has failed with `ErrTooLong`. -/
structure ScanSt where
  linesRev : List (List Char)
  curRev : List Char
  curLen : Nat
  errored : Bool
deriving Repr

/-- One input byte of `bufio.Scanner` with `ScanLines`: after an error
the scan has stopped; a newline completes the current token (minus a
trailing carriage return); otherwise the byte joins the current token
unless that would fill the whole `maxScanTokenSize` buffer without a
newline in sight — then `Scan` fails with `ErrTooLong`. -/
def scanStep (st : ScanSt) (c : Char) : ScanSt :=
  if st.errored then st
  else if c == '\n' then
    { st with linesRev := dropCR st.curRev.reverse :: st.linesRev,
              curRev := [], curLen := 0 }
  else if maxScanTokenSize ≤ st.curLen + 1 then
    { st with errored := true }
  else
    { st with curRev := c :: st.curRev, curLen := st.curLen + 1 }

/-- The token stream `bufio.Scanner` with `ScanLines` produces on `text`
(each `Char` standing for one byte), and whether the scan ended in
`ErrTooLong`: the tokens produced before the failure are kept (the
caller's loop has already consumed them); at end of input a nonempty
remainder is the final token and an empty one produces none. Reading
from `strings.NewReader` yields no error besides EOF, so `ErrTooLong`
is the scanner's only error source. -/
def scanLines (text : List Char) : List (List Char) × Bool :=
  let st := text.foldl scanStep ⟨[], [], 0, false⟩
  if st.errored then (st.linesRev.reverse, true)
  else if st.curRev = [] then (st.linesRev.reverse, false)
  else ((dropCR st.curRev.reverse :: st.linesRev).reverse, false)

/-- `ParseNameservers` of ssc.go over the raw resolv.conf text: scan it
with `scanLines` (the `bufio.Scanner`, including its token limit), run
the nameserver loop over the produced lines, and return
`(ipv4, ipv6, error?)` — on a scanner error the partial lists are
returned with the error, before the default-injection step; otherwise
the default 8.8.8.8 entry is injected when both lists are empty.
`pIPv6 line` models `net.ParseIP(reIPv6.FindString(line))` and `pIPv4
line` models `net.ParseIP(reIPv4.FindString(line))`: calls into the Go
standard library, passed in as parameters; `none` models the `nil`
result for an unparsable line. -/
def ParseNameservers (pIPv6 pIPv4 : String → Option IPStr)
    (text : List Char) : List IPStr × List IPStr × Bool :=
  let scanRes := scanLines text
  let scanned := parseNSLoop pIPv6 pIPv4 (scanRes.1.map (fun l => String.mk l))
  if scanRes.2 then (scanned.1, scanned.2, true)
  else if scanned.1 = [] ∧ scanned.2 = [] then ([defaultIPv4DNS], [], false)
  else (scanned.1, scanned.2, false)

/-- The Kubernetes service-domain token `".svc."` of
`GetServiceDomainList` (its `k8sServiceInfix` constant). -/
def svcTok : List Char := ['.', 's', 'v', 'c', '.']

/-- `GetDomainName` of ssc.go: the longest entry, first one winning ties
(the loop keeps an entry only when strictly longer than the current). -/
def GetDomainName (searchDomains : List (List Char)) : List Char :=
  searchDomains.foldl (fun selected d =>
    if selected.length < d.length then d else selected) []

/-- `GetServiceDomainList` of ssc.go: the entries containing `".svc."`. -/
def GetServiceDomainList (searchDomains : List (List Char)) : List (List Char) :=
  searchDomains.filter (fun d => containsSub svcTok d)

/-- `GetLongestServiceDomainName` of ssc.go. -/
def GetLongestServiceDomainName (searchDomains : List (List Char)) : List Char :=
  GetDomainName (GetServiceDomainList searchDomains)

/-- `DomainNameWithSubdomain` of ssc.go. -/
def DomainNameWithSubdomain (searchDomains : List (List Char))
    (subdomain : List Char) : List Char :=
  if subdomain = [] then []
  else
    let domainName := GetLongestServiceDomainName searchDomains
    if domainName ≠ [] ∧ ¬ hasPref (subdomain ++ ['.']) domainName
    then subdomain ++ '.' :: domainName
    else []

end ssc

namespace infraconfigurators

/-- `v1.Port` as used by the reserved-ports code: name, port number,
protocol string. -/
structure Port where
  name : String
  port : Int
  protocol : String
deriving DecidableEq, Repr

/-- The `RESERVED_PORTS_ANNOTATION` key `kubevirt.io/reserved-ports`. -/
def RESERVED_PORTS_KEY : String := "kubevirt.io/reserved-ports"

/-- `default_reserved_ports`: the built-in VNC defaults. -/
def default_reserved_ports : List Port :=
  [⟨"vnc", 5900, "TCP"⟩, ⟨"vnc-ws", 5901, "TCP"⟩]

/-- Lookup in the VMI's metadata annotation map (`vmi.GetAnnotations()`),
modelled as an association list with unique keys. -/
def lookupAnn (annots : List (String × String)) (key : String) : Option String :=
  annots.lookup key

/-- `reservedPortsInPod`. `unmarshalPorts data` models the contents of the
`ports` slice after `json.Unmarshal([]byte(data), &ports)` was run on a
slice initialised empty: `encoding/json` is a Go library call, passed in as
a parameter. The source discards the `Unmarshal` error, so only the
resulting slice matters; on a JSON syntax error Go leaves the target
untouched, i.e. the function yields `[]`. -/
def reservedPortsInPod (unmarshalPorts : String → List Port)
    (annots : List (String × String)) : List Port :=
  match lookupAnn annots RESERVED_PORTS_KEY with
  | none => default_reserved_ports
  | some data => unmarshalPorts data

/-- Address family selector (`iptables.Protocol` / `netlink.FAMILY_V4|V6`). -/
inductive Proto where
  | ipv4
  | ipv6
deriving DecidableEq, Repr

/-- The network device a handler call targets. -/
inductive Dev where
  | pod
  | tap
  | bridge
deriving DecidableEq, Repr

/-- Which route a `RouteAdd` call installs. -/
inductive RouteKind where
  /-- the on-link static route to `DefaultIPv4Dst`/`DefaultIPv6Dst` via
  the learned default gateway, on the pod link -/
  | defaultGw (p : Proto)
  /-- the host-scoped route sending the original pod IP to the bridge -/
  | podIPOnBridge (p : Proto)
deriving DecidableEq, Repr

/-- Which neighbor entry a `NeighAdd` call installs. -/
inductive NeighKind where
  /-- the permanent entry pinning the default gateway IP to the synthetic
  gateway MAC, on the pod link -/
  | gatewayPin (p : Proto)
  /-- the proxy entry answering for the pod's original IP, on the pod link -/
  | proxyPod (p : Proto)
deriving DecidableEq, Repr

/-- One call of `RouterPodNetworkConfigurator`'s Prepare path into the
`netdriver.NetworkHandler` capability interface. Pure computations of the
source (`fmt.Sprintf`, `netlink.ParseCIDR` of fixed literals,
`handler.ParseAddr` of the fixed local addresses, which cannot fail on
those constants) are not events. -/
inductive HCall where
  | linkSetDown
  | addrDel (p : Proto)
  | setRandomMac
  | linkSetUp (d : Dev)
  | createTapDevice
  | linkByName (d : Dev)
  | linkAdd
  | linkSetMaster
  | addrAdd (p : Proto)
  | configureIpForwarding (p : Proto)
  | nftablesLoad (p : Proto)
  | nftablesAppendRule (p : Proto) (port : Int) (tok : String)
  | hasNatIptables (p : Proto)
  | iptablesAppendRule (p : Proto) (port : Int) (tok : String)
  | routeAdd (r : RouteKind)
  | neighAdd (n : NeighKind)
  | enableIpv4ArpProxy
  | enableIpv6NdpProxyAll
  | enableIpv6NdpProxyIface
deriving DecidableEq, Repr

/-- A handler call whose outcome cannot abort Prepare: `AddrDel`'s error is
discarded with `_ =` by `configurePodNic`, and `NftablesLoad` /
`HasNatIptables` are backend probes whose negative answer only selects a
branch of `createNATRulesForReservedPorts`. -/
def Ignored : HCall → Prop
  | .addrDel _ => True
  | .nftablesLoad _ => True
  | .hasNatIptables _ => True
  | _ => False

instance : DecidablePred Ignored := fun c => by
  cases c <;> simp [Ignored] <;> infer_instance

/-- A run of a Prepare fragment: the handler calls it performed, in order,
and `none` for success or `some c` for the error returned by call `c`
(errors are propagated verbatim, so the failing call stands for its
error). -/
abbrev Run := List HCall × Option HCall

/-- Execute one handler call against the environment oracle `ora`
(`ora c = true` means the host accepts call `c`). -/
def step (ora : HCall → Bool) (c : HCall) : Run :=
  ([c], if ora c then none else some c)

/-- Sequencing of Prepare fragments: the second runs only when the first
returned no error; the recorded calls accumulate. -/
def seqr (a : Run) (k : Unit → Run) : Run :=
  match a with
  | (tr, some e) => (tr, some e)
  | (tr, none) => (tr ++ (k ()).1, (k ()).2)

/-- Configuration facts Prepare branches on, as discovered by
`DiscoverPodNetworkInterface`: the per-family enabled flags and the VMI's
metadata annotations (for `reservedPortsInPod`). -/
structure PrepCfg where
  ipv4Enabled : Bool
  ipv6Enabled : Bool
  annots : List (String × String)
deriving Repr

/-- `configurePodNic`: link down, delete the enabled families' addresses
(errors discarded), randomize the MAC, link up. -/
def configurePodNic (cfg : PrepCfg) (ora : HCall → Bool) : Run :=
  seqr (step ora .linkSetDown) fun _ =>
  seqr ((if cfg.ipv4Enabled then [HCall.addrDel .ipv4] else []) ++
        (if cfg.ipv6Enabled then [HCall.addrDel .ipv6] else []), none) fun _ =>
  seqr (step ora .setRandomMac) fun _ =>
  step ora (.linkSetUp .pod)

/-- `createTapDevice`: create the tap, look its link up, bring it up. -/
def createTapDevice (ora : HCall → Bool) : Run :=
  seqr (step ora .createTapDevice) fun _ =>
  seqr (step ora (.linkByName .tap)) fun _ =>
  step ora (.linkSetUp .tap)

/-- `createBridge`: add the bridge link, enslave the tap, bring the bridge
up, assign the fixed local address per enabled family, finally look the
bridge link up. -/
def createBridge (cfg : PrepCfg) (ora : HCall → Bool) : Run :=
  seqr (step ora .linkAdd) fun _ =>
  seqr (step ora .linkSetMaster) fun _ =>
  seqr (step ora (.linkSetUp .bridge)) fun _ =>
  seqr (if cfg.ipv4Enabled then step ora (.addrAdd .ipv4) else ([], none)) fun _ =>
  seqr (if cfg.ipv6Enabled then step ora (.addrAdd .ipv6) else ([], none)) fun _ =>
  step ora (.linkByName .bridge)

/-- The `protoToken` computed per reserved port: `"udp"` exactly when the
port's protocol string is `"UDP"`, `"tcp"` otherwise. -/
def protoToken (port : Port) : String :=
  if port.protocol == "UDP" then "udp" else "tcp"

/-- The per-port DNAT rule loop shared by the nftables and the iptables
branch: one append call per reserved port, in list order, aborting on the
first failure. -/
def appendRules (ora : HCall → Bool) (mk : Int → String → HCall) :
    List Port → Run
  | [] => ([], none)
  | port :: rest =>
    seqr (step ora (mk port.port (protoToken port))) fun _ =>
    appendRules ora mk rest

/-- `createNATRulesForReservedPorts`: enable forwarding, install the DNAT
rules through nftables when rule loading works, else through iptables when
NAT iptables support is present, else skip them; then add the gateway
route, pin the gateway neighbor, and route the pod IP to the bridge. -/
def createNATRulesForReservedPorts (ora : HCall → Bool) (proto : Proto)
    (ports : List Port) : Run :=
  seqr (step ora (.configureIpForwarding proto)) fun _ =>
  seqr (if ora (.nftablesLoad proto) then
          seqr ([HCall.nftablesLoad proto], none) fun _ =>
          appendRules ora (fun p t => .nftablesAppendRule proto p t) ports
        else if ora (.hasNatIptables proto) then
          seqr ([HCall.nftablesLoad proto, HCall.hasNatIptables proto], none) fun _ =>
          appendRules ora (fun p t => .iptablesAppendRule proto p t) ports
        else ([HCall.nftablesLoad proto, HCall.hasNatIptables proto], none)) fun _ =>
  seqr (step ora (.routeAdd (.defaultGw proto))) fun _ =>
  seqr (step ora (.neighAdd (.gatewayPin proto))) fun _ =>
  step ora (.routeAdd (.podIPOnBridge proto))

/-- `configureNeighbourReply`: proxy-ARP plus the IPv4 proxy neighbor when
IPv4 is enabled; global and per-link NDP proxy plus the IPv6 proxy
neighbor when IPv6 is enabled. -/
def configureNeighbourReply (cfg : PrepCfg) (ora : HCall → Bool) : Run :=
  seqr (if cfg.ipv4Enabled then
          seqr (step ora .enableIpv4ArpProxy) fun _ =>
          step ora (.neighAdd (.proxyPod .ipv4))
        else ([], none)) fun _ =>
  if cfg.ipv6Enabled then
    seqr (step ora .enableIpv6NdpProxyAll) fun _ =>
    seqr (step ora .enableIpv6NdpProxyIface) fun _ =>
    step ora (.neighAdd (.proxyPod .ipv6))
  else ([], none)

/-- `PreparePodNetworkInterface`: configure the pod NIC, create the tap,
create the bridge, install the IPv4 then the IPv6 NAT/route/neighbor
rules for the enabled families, configure neighbor proxying. The reserved
ports come from `reservedPortsInPod` on the VMI's annotations. -/
def PreparePodNetworkInterface (cfg : PrepCfg)
    (unmarshalPorts : String → List Port) (ora : HCall → Bool) : Run :=
  let ports := reservedPortsInPod unmarshalPorts cfg.annots
  seqr (configurePodNic cfg ora) fun _ =>
  seqr (createTapDevice ora) fun _ =>
  seqr (createBridge cfg ora) fun _ =>
  seqr (if cfg.ipv4Enabled then createNATRulesForReservedPorts ora .ipv4 ports
        else ([], none)) fun _ =>
  seqr (if cfg.ipv6Enabled then createNATRulesForReservedPorts ora .ipv6 ports
        else ([], none)) fun _ =>
  configureNeighbourReply cfg ora

end infraconfigurators

namespace infraconfigurators

/-- A learned `netlink.Route`, reduced to what this development inspects:
the destination, `none` modelling the `nil` `Dst` of a default route. -/
structure RouteM where
  dst : Option String
deriving DecidableEq, Repr

/-- The fixed link-local IPv4 proxy address (`localIPv4Addr`,
`169.254.75.1/32`) assigned to the in-pod bridge. -/
def localIPv4IP : ssc.IPStr := "169.254.75.1"

/-- The fixed link-local IPv6 proxy address (`localIPv6Addr`,
`fc00:eeee:eeee:eeee:eeee:eeee:eeee:eeee/128`). -/
def localIPv6IP : ssc.IPStr := "fc00:eeee:eeee:eeee:eeee:eeee:eeee:eeee"

/-- A `netlink.Addr`: address plus mask length. -/
structure AddrM where
  ip : ssc.IPStr
  maskLen : Nat
deriving DecidableEq, Repr

/-- The fields of `RouterPodNetworkConfigurator` that
`GenerateNonRecoverableDHCPConfig` reads, as left by Discover. -/
structure RouterState where
  ipv4Enabled : Bool
  ipv6Enabled : Bool
  vmMac : String
  podIPv4Addr : ssc.IPStr
  podIPv6Addr : ssc.IPStr
  podIfaceIPv4Routes : List RouteM
  podIfaceIPv6Routes : List RouteM
  defaultIPv4Gateway : ssc.IPStr
  defaultIPv6Gateway : ssc.IPStr
deriving Repr

/-- `cache.DHCPConfig`. Modelled from the spec: the struct's own file
(pkg/network/cache) is not among the staged sources; the fields follow §3
"DHCP Config" and their assignments in router.go. Go zero values of unset
fields are `none` / the empty string. -/
structure DHCPConfig where
  ipamDisabled : Bool := false
  mac : String := ""
  ip : Option AddrM := none
  routes : Option (List RouteM) := none
  gateway : ssc.IPStr := ""
  ipv6 : Option AddrM := none
  ipv6Routes : Option (List RouteM) := none
  ipv6Gateway : ssc.IPStr := ""
deriving DecidableEq, Repr

/-- Modelled from the spec: `virtnetlink.FilterPodNetworkRoutes`
(pkg/network/link, absent from the staged sources) — "route list filtered
to exclude the default (handled by a static gateway route)". The
`dhcpConfig` argument of the source is not needed for the filtering
modelled here. -/
def FilterPodNetworkRoutes (routes : List RouteM) : List RouteM :=
  routes.filter (fun r => r.dst.isSome)

/-- `GenerateNonRecoverableDHCPConfig` of router.go: the IPAM-disabled
sentinel when no family is enabled; otherwise the VM MAC plus, per enabled
family, the pod address under a host mask, the filtered route list (only
when more than one route was learned), and the gateway fields — the fixed
local IPv4 address for IPv4, the learned default gateway for IPv6. -/
def GenerateNonRecoverableDHCPConfig (b : RouterState) : DHCPConfig :=
  if ¬ b.ipv4Enabled ∧ ¬ b.ipv6Enabled then { ipamDisabled := true }
  else
    let base : DHCPConfig := { mac := b.vmMac, ipamDisabled := false }
    let c4 : DHCPConfig :=
      if b.ipv4Enabled then
        { base with
          ip := some ⟨b.podIPv4Addr, 32⟩,
          routes := if 1 < b.podIfaceIPv4Routes.length
                    then some (FilterPodNetworkRoutes b.podIfaceIPv4Routes)
                    else none,
          gateway := localIPv4IP }
      else base
    if b.ipv6Enabled then
      { c4 with
        ipv6 := some ⟨b.podIPv6Addr, 128⟩,
        ipv6Routes := if 1 < b.podIfaceIPv6Routes.length
                      then some (FilterPodNetworkRoutes b.podIfaceIPv6Routes)
                      else none,
        ipv6Gateway := b.defaultIPv6Gateway }
    else c4

/-- A handler call of the Discover phase. -/
inductive DCall where
  | linkByNamePod
  | readAddrs
  | enableIPv6Flags
  | routeList (p : Proto)
  | getDefaultGateway (p : Proto)
deriving DecidableEq, Repr

/-- Whether a discovery-phase handler call mutates host state: only the
IPv6 forwarding/proxy-NDP sysctl write (`EnableIPv6Flags`) does; every
other call is a netlink read. -/
def isMutation : DCall → Bool
  | .enableIPv6Flags => true
  | _ => false

/-- The errors Discover can return, by failing call. `noRoutes p` is the
`fmt.Errorf("no gateway address found in routes for %s", ...)` raised by
`learnInterfaceRoutes` when family `p` has an empty route list. -/
inductive DErr where
  | linkErr
  | addrErr
  | flagsErr
  | routeListErr (p : Proto)
  | noRoutes (p : Proto)
  | gatewayErr (p : Proto)
  | macErr
deriving DecidableEq, Repr

/-- A run of a Discover fragment: calls performed plus error. -/
abbrev DRun := List DCall × Option DErr

/-- Sequencing for Discover fragments, as `seqr` for Prepare. -/
def dseq (a : DRun) (k : Unit → DRun) : DRun :=
  match a with
  | (tr, some e) => (tr, some e)
  | (tr, none) => (tr ++ (k ()).1, (k ()).2)

/-- The environment Discover runs against: what each host read returns.
`ipv4Addr` / `ipv6Addr` are what `ReadIPv4AndIPv6AddrFromLink` reports
(`none` = that family absent); `specMacOk` models whether
`virtnetlink.RetrieveMacAddressFromVMISpecIface` (repo code absent from
the staged sources; per spec §4.4 step 6 it resolves the explicit spec
MAC and can fail) succeeds. -/
structure DiscoverEnv where
  linkOk : Bool
  readAddrsOk : Bool
  ipv4Addr : Option ssc.IPStr
  ipv6Addr : Option ssc.IPStr
  enableFlagsOk : Bool
  routeListOk : Proto → Bool
  routes : Proto → List RouteM
  gatewayOk : Proto → Bool
  specMacOk : Bool

/-- One family's part of `learnInterfaceRoutes`: list the routes, fail on
a read error, fail with `noRoutes` on an empty list, else read the
default gateway. -/
def learnFamilyRoutes (env : DiscoverEnv) (p : Proto) : DRun :=
  if ¬ env.routeListOk p then ([.routeList p], some (.routeListErr p))
  else if env.routes p = [] then ([.routeList p], some (.noRoutes p))
  else
    dseq ([.routeList p], none) fun _ =>
    if env.gatewayOk p then ([.getDefaultGateway p], none)
    else ([.getDefaultGateway p], some (.gatewayErr p))

/-- `learnInterfaceRoutes` of router.go: the IPv4 part when IPv4 is
enabled, then the IPv6 part when IPv6 is enabled. -/
def learnInterfaceRoutes (env : DiscoverEnv) (v4E v6E : Bool) : DRun :=
  dseq (if v4E then learnFamilyRoutes env .ipv4 else ([], none)) fun _ =>
  if v6E then learnFamilyRoutes env .ipv6 else ([], none)

/-- `DiscoverPodNetworkInterface` of router.go: resolve the link, read
the families' addresses, enable the IPv6 sysctl flags when IPv6 is
enabled, learn routes and gateways, then derive the device names (pure)
and resolve the VM MAC. -/
def DiscoverPodNetworkInterface (env : DiscoverEnv) : DRun :=
  dseq (if env.linkOk then ([.linkByNamePod], none)
        else ([.linkByNamePod], some .linkErr)) fun _ =>
  dseq (if env.readAddrsOk then ([.readAddrs], none)
        else ([.readAddrs], some .addrErr)) fun _ =>
  dseq (if env.ipv6Addr.isSome then
          (if env.enableFlagsOk then ([.enableIPv6Flags], none)
           else ([.enableIPv6Flags], some .flagsErr))
        else ([], none)) fun _ =>
  dseq (learnInterfaceRoutes env env.ipv4Addr.isSome env.ipv6Addr.isSome) fun _ =>
  ([], if env.specMacOk then none else some .macErr)

end infraconfigurators

namespace agentpoller

/-- The `\s` character class of Go's regexp package (RE2):
tab, newline, form feed, carriage return, space. -/
def isGoSpace (c : Char) : Bool :=
  c == ' ' || c == '\t' || c == '\n' || c == Char.ofNat 12 || c == Char.ofNat 13

/-- The literal segment of the strip regex following the opening brace and
optional whitespace: a quoted `return` key and its colon. -/
def litReturnKey : List Char :=
  ['"', 'r', 'e', 't', 'u', 'r', 'n', '"', ':']

/-- Whether position 0 of `c :: u` closes the capture group of the strip
regex: `c` is a closing bracket and `u`, after optional whitespace, opens
with the closing brace of the wrapping object. -/
def goodStop (c : Char) (u : List Char) : Bool :=
  (c == '}' || c == ']') &&
    (match u.dropWhile isGoSpace with
     | d :: _ => d == '}'
     | [] => false)

/-- The greedy `[\s\S]*` of the capture group: the LAST index `j` of `t`
such that `t` closes the group at `j` (a backtracking search shrinks the
star from the right, so the rightmost viable closing bracket wins). -/
def findLastStop : List Char → Option Nat
  | [] => none
  | c :: u =>
    match findLastStop u with
    | some j => some (j + 1)
    | none => if goodStop c u then some 0 else none

/-- Match the strip regex
`{\s*\"return\":\s*([{\[][\s\S]*[}\]])\s*}` anchored at the head of `s`,
returning the capture group. -/
def matchAt (s : List Char) : Option (List Char) :=
  match s with
  | c :: r1 =>
    if c == '{' then
      let r2 := r1.dropWhile isGoSpace
      if ssc.hasPref litReturnKey r2 then
        let r3 := (r2.drop litReturnKey.length).dropWhile isGoSpace
        match r3 with
        | c0 :: t =>
          if c0 == '{' || c0 == '[' then
            match findLastStop t with
            | some j => some (c0 :: t.take (j + 1))
            | none => none
          else none
        | [] => none
      else none
    else none
  | [] => none

/-- `stripRE.FindStringSubmatch`: Go regexp returns the match beginning as
early as possible in the input, so try `matchAt` at each start position
left to right. `none` models the `nil` result for a reply with no match. -/
def stripSearch : List Char → Option (List Char)
  | [] => none
  | c :: t =>
    match matchAt (c :: t) with
    | some cap => some cap
    | none => stripSearch t

/-- `stripAgentResponse`: index `[1]` of `stripRE.FindStringSubmatch`.
When the reply does not match, `FindStringSubmatch` returns `nil` and the
indexing panics: that case is `none` here and the parse functions below
turn it into their crash result. -/
def stripAgentResponse (agentReply : List Char) : Option (List Char) :=
  stripSearch agentReply

/-- The outcome of a Go function that can panic: `crash` is a runtime
panic (never a returned value), `ok` a normal result, `err` a returned
`error`. -/
inductive GoRes (α : Type) where
  | crash : GoRes α
  | ok : α → GoRes α
  | err : String → GoRes α
deriving DecidableEq, Repr

/-- `GuestOsInfo`, the unmarshalling target of `parseGuestOSInfo`. -/
structure GuestOsInfo where
  name : String := ""
  kernelRelease : String := ""
  version : String := ""
  prettyName : String := ""
  versionId : String := ""
  kernelVersion : String := ""
  machine : String := ""
  id : String := ""
deriving DecidableEq, Repr

/-- `api.GuestOSInfo`, the converted result of `parseGuestOSInfo`. -/
structure ApiGuestOSInfo where
  name : String := ""
  kernelRelease : String := ""
  version : String := ""
  prettyName : String := ""
  versionId : String := ""
  kernelVersion : String := ""
  machine : String := ""
  id : String := ""
deriving DecidableEq, Repr

/-- Run one parse function body shared by all the object-reply parsers:
strip the agent response (panicking — `crash` — when the wrapping does
not match), unmarshal (a Go library call passed in as `unmarshal`, `.error`
being its JSON error), and convert the success value. -/
def parseBody {α β : Type} (unmarshal : List Char → Except String α)
    (convert : α → β) (agentReply : List Char) : GoRes β :=
  match stripAgentResponse agentReply with
  | none => .crash
  | some response =>
    match unmarshal response with
    | .error e => .err e
    | .ok v => .ok (convert v)

/-- `parseGuestOSInfo`: strip, unmarshal into `GuestOsInfo`, convert
field by field into `api.GuestOSInfo`. -/
def parseGuestOSInfo (unmarshal : List Char → Except String GuestOsInfo)
    (agentReply : List Char) : GoRes ApiGuestOSInfo :=
  parseBody unmarshal
    (fun g => { name := g.name, kernelRelease := g.kernelRelease,
                version := g.version, prettyName := g.prettyName,
                versionId := g.versionId, kernelVersion := g.kernelVersion,
                machine := g.machine, id := g.id })
    agentReply

/-- One guest-agent reported address (`IP` of agent_parser.go): value,
family type (`"ipv4"`/`"ipv6"`), prefix length. -/
structure AgentIP where
  ip : String
  typ : String
  prefLen : Int := 0
deriving DecidableEq, Repr

/-- One guest-agent reported interface (`Interface` of agent_parser.go). -/
structure AgentIface where
  mac : String
  ips : List AgentIP
  name : String
deriving DecidableEq, Repr

/-- The provenance tags of `netvmispec`. Modelled from the spec: the
`InfoSource*` constants live in pkg/network/vmispec, absent from the
staged sources; only their identity and distinctness matter. -/
def infoSourceDomain : String := "domain"

/-- Tag for an interface only the guest agent reported. -/
def infoSourceGuestAgent : String := "guest-agent"

/-- Tag for an interface both the hypervisor and the agent reported. -/
def infoSourceDomainAndGA : String := "domain, guest-agent"

/-- `api.InterfaceStatus`: the merged per-interface record. Go zero
values are the empty string / empty list. -/
structure InterfaceStatus where
  name : String := ""
  mac : String := ""
  ip : String := ""
  ips : List String := []
  interfaceName : String := ""
  infoSource : String := ""
deriving DecidableEq, Repr

/-- The loop of `extractIPs`, carrying Go's `interfaceIP` and
`interfaceIPs` accumulators: collect every address value; remember the
first `"ipv4"`-typed address seen while the summary is still empty. -/
def extractIPsLoop : List AgentIP → String → List String → String × List String
  | [], curIP, curIPs => (curIP, curIPs)
  | a :: rest, curIP, curIPs =>
    extractIPsLoop rest
      (if a.typ == "ipv4" && curIP == "" then a.ip else curIP)
      (curIPs ++ [a.ip])

/-- `extractIPs` of agent_parser.go: the loop above, then the fallback
taking the first address of any family when no IPv4 summary was found. -/
def extractIPs (ipAddresses : List AgentIP) : String × List String :=
  let r := extractIPsLoop ipAddresses "" []
  if r.1 == "" && !r.2.isEmpty then (r.2.headD "", r.2) else r

/-- `convertInterfaceStatusesFromAgentJSON`: drop the loopback entry,
carry MAC, summary IP, all IPs and the agent-reported name. -/
def convertInterfaceStatusesFromAgentJSON : List AgentIface → List InterfaceStatus
  | [] => []
  | ifc :: rest =>
    if ifc.name == "lo" then convertInterfaceStatusesFromAgentJSON rest
    else
      { mac := ifc.mac, ip := (extractIPs ifc.ips).1,
        ips := (extractIPs ifc.ips).2, interfaceName := ifc.name } ::
      convertInterfaceStatusesFromAgentJSON rest

/-- `parseInterfaces`: strip, unmarshal into `[]Interface`, convert via
`convertInterfaceStatusesFromAgentJSON`. -/
def parseInterfaces (unmarshal : List Char → Except String (List AgentIface))
    (agentReply : List Char) : GoRes (List InterfaceStatus) :=
  parseBody unmarshal convertInterfaceStatusesFromAgentJSON agentReply

/-- `parseHostname`: strip, unmarshal into `Hostname`, project the
`host-name` field (the target struct is its single string field). -/
def parseHostname (unmarshal : List Char → Except String String)
    (agentReply : List Char) : GoRes String :=
  parseBody unmarshal (fun h => h) agentReply

/-- `Timezone` / `api.Timezone`: zone name and offset. -/
structure Timezone where
  zone : String := ""
  offset : Int := 0
deriving DecidableEq, Repr

/-- `parseTimezone`: strip, unmarshal into `Timezone`, convert (the api
type carries the same two fields). -/
def parseTimezone (unmarshal : List Char → Except String Timezone)
    (agentReply : List Char) : GoRes Timezone :=
  parseBody unmarshal (fun t => { zone := t.zone, offset := t.offset }) agentReply

/-- `Filesystem` / `api.Filesystem`. -/
structure Filesystem where
  name : String := ""
  mountpoint : String := ""
  typ : String := ""
  usedBytes : Int := 0
  totalBytes : Int := 0
deriving DecidableEq, Repr

/-- `parseFilesystem`: strip, unmarshal into `[]Filesystem`, convert each
record field by field. -/
def parseFilesystem (unmarshal : List Char → Except String (List Filesystem))
    (agentReply : List Char) : GoRes (List Filesystem) :=
  parseBody unmarshal
    (fun fss => fss.map (fun fs =>
      { name := fs.name, mountpoint := fs.mountpoint, typ := fs.typ,
        usedBytes := fs.usedBytes, totalBytes := fs.totalBytes }))
    agentReply

/-- `User` / `api.User`: name, domain, login time. -/
structure User where
  name : String := ""
  domain : String := ""
  loginTime : Int := 0
deriving DecidableEq, Repr

/-- `parseUsers`: strip, unmarshal into `[]User`, convert each record. -/
def parseUsers (unmarshal : List Char → Except String (List User))
    (agentReply : List Char) : GoRes (List User) :=
  parseBody unmarshal
    (fun us => us.map (fun u =>
      { name := u.name, domain := u.domain, loginTime := u.loginTime }))
    agentReply

/-- `AgentInfo`: guest-agent version and supported commands. -/
structure AgentInfo where
  version : String := ""
  supportedCommands : List String := []
deriving DecidableEq, Repr

/-- `parseAgent`: strip, unmarshal into `AgentInfo`, log and return it. -/
def parseAgent (unmarshal : List Char → Except String AgentInfo)
    (agentReply : List Char) : GoRes AgentInfo :=
  parseBody unmarshal (fun a => a) agentReply

/-- `api.Interface` as `MergeAgentStatusesWithDomainData` reads it:
the hypervisor-side MAC and the logical alias name. -/
structure DomIface where
  mac : String
  aliasName : String
deriving DecidableEq, Repr

/-- Go map insertion for `aliasByMac`: overwrite an existing key's value,
else add the pair. The Go map's random iteration order is determinised to
key-insertion order; every property proved below is insensitive to it
except the placement of appended records, which the merge claim leaves
unordered anyway. -/
def insertAlias (m : List (String × String)) (k v : String) :
    List (String × String) :=
  if (m.lookup k).isSome
  then m.map (fun p => if p.1 == k then (k, v) else p)
  else m ++ [(k, v)]

/-- The `aliasByMac` map built by the first loop of
`MergeAgentStatusesWithDomainData`. -/
def buildAliasByMac (domInterfaces : List DomIface) : List (String × String) :=
  domInterfaces.foldl (fun m ifc => insertAlias m ifc.mac ifc.aliasName) []

/-- The second loop of `MergeAgentStatusesWithDomainData`: rename and tag
each agent-reported status by MAC lookup, collecting the aliases covered
by agent data (in loop order). -/
def markStatuses (aliasByMac : List (String × String)) :
    List InterfaceStatus → List InterfaceStatus × List String
  | [] => ([], [])
  | st :: rest =>
    let acc := markStatuses aliasByMac rest
    match aliasByMac.lookup st.mac with
    | some al =>
      ({ st with name := al, infoSource := infoSourceDomainAndGA } :: acc.1,
       al :: acc.2)
    | none =>
      ({ st with infoSource := infoSourceGuestAgent } :: acc.1, acc.2)

/-- The third loop of `MergeAgentStatusesWithDomainData`: append a
`Domain`-tagged record for every map entry whose alias was not covered by
agent data. -/
def appendUncovered (covered : List String) (m : List (String × String))
    (acc : List InterfaceStatus) : List InterfaceStatus :=
  m.foldl (fun acc p =>
    if covered.contains p.2 then acc
    else acc ++ [{ mac := p.1, name := p.2, infoSource := infoSourceDomain }]) acc

/-- `MergeAgentStatusesWithDomainData` of agent_parser.go. -/
def MergeAgentStatusesWithDomainData (domInterfaces : List DomIface)
    (interfaceStatuses : List InterfaceStatus) : List InterfaceStatus :=
  let aliasByMac := buildAliasByMac domInterfaces
  let marked := markStatuses aliasByMac interfaceStatuses
  appendUncovered marked.2 aliasByMac marked.1

/-- The status pipeline the merge claim quantifies over: agent JSON
records converted by `convertInterfaceStatusesFromAgentJSON`, then merged
with the hypervisor interfaces. -/
def mergePipeline (domInterfaces : List DomIface)
    (agentResult : List AgentIface) : List InterfaceStatus :=
  MergeAgentStatusesWithDomainData domInterfaces
    (convertInterfaceStatusesFromAgentJSON agentResult)

end agentpoller

namespace ndp

/-- An incoming NDP message as `Serve` classifies it: the switch acts on
`*ndp.RouterSolicitation` and ignores every other message type. -/
inductive NDPMsg where
  | routerSolicitation
  | other
deriving DecidableEq, Repr

/-- The outcome of one `ReadFrom` on the NDP connection. -/
inductive ReadRes where
  | msg (m : NDPMsg)
  | fail (e : Nat)
deriving DecidableEq, Repr

/-- `ndp.Infinity` of the external mdlayher/ndp library: the marker
duration for an infinite reachable time. Its concrete value is opaque to
the code under verification; it only matters that the advertisement
carries exactly this marker. -/
def ndpInfinity : Nat := 4294967295

/-- `routerAdvertisementMaxLifetime`: 65535 seconds, the largest 16-bit
value (RFC 4861 section 4.2). -/
def routerAdvertisementMaxLifetime : Nat := 65535

/-- The Router Advertisement `SendRouterAdvertisement` builds: managed and
other-configuration flags set, maximal router lifetime, infinite
reachable time (the precomputed options are fixed at construction and not
modelled further). -/
structure RA where
  managedConfiguration : Bool
  otherConfiguration : Bool
  routerLifetime : Nat
  reachableTime : Nat
deriving DecidableEq, Repr

/-- The one advertisement value the advertiser ever sends. -/
def theRA : RA :=
  { managedConfiguration := true, otherConfiguration := true,
    routerLifetime := routerAdvertisementMaxLifetime,
    reachableTime := ndpInfinity }

/-- The destination of a `WriteTo`. -/
inductive Dst where
  /-- `net.IPv6linklocalallnodes`, the all-nodes multicast address -/
  | allNodesMulticast
  | otherDst
deriving DecidableEq, Repr

/-- One observable event of the `Serve` loop. -/
inductive Ev where
  | read (r : ReadRes)
  | send (ra : RA) (d : Dst) (ok : Bool)
deriving DecidableEq, Repr

/-- Why a finite observation of `Serve` ended: a read error returned to
the caller, a send error returned to the caller, or the supplied read
sequence ran out (the loop itself is unbounded). -/
inductive Outcome where
  | readErr (e : Nat)
  | sendErr
  | ranOut
deriving DecidableEq, Repr

/-- `Serve` of ndp.go, driven by the finite sequence `reads` of `ReadFrom`
results and by `sendOk`, which gives the outcome of the `k`-th `WriteTo`
(`k` counts the sends performed so far): read one message; a read error
ends the loop and is returned; a Router Solicitation triggers one
`SendRouterAdvertisement` of `theRA` to the all-nodes multicast address,
whose failure also ends the loop; any other message type loops. -/
def Serve (sendOk : Nat → Bool) : List ReadRes → Nat → List Ev × Outcome
  | [], _ => ([], .ranOut)
  | .fail e :: _, _ => ([.read (.fail e)], .readErr e)
  | .msg .other :: rest, k =>
    let acc := Serve sendOk rest k
    (.read (.msg .other) :: acc.1, acc.2)
  | .msg .routerSolicitation :: rest, k =>
    if sendOk k then
      let acc := Serve sendOk rest (k + 1)
      (.read (.msg .routerSolicitation) ::
         .send theRA .allNodesMulticast true :: acc.1, acc.2)
    else
      ([.read (.msg .routerSolicitation),
        .send theRA .allNodesMulticast false], .sendErr)

end ndp

namespace agentpoller

/-- The summary address rule as the merge claim words it: the first
IPv4-typed address, else the first address of any family, else empty. -/
def summaryIP (ips : List AgentIP) : String :=
  match ips.find? (fun i => i.typ == "ipv4") with
  | some i => i.ip
  | none =>
    match ips with
    | [] => ""
    | i :: _ => i.ip

/-- The merged list as the claim describes it (the claim-side model to
compare `mergePipeline` against): loopback agent entries dropped; each
remaining agent entry tagged and renamed by MAC match; every hypervisor
interface whose MAC no surviving agent entry reported appended as a
`Domain` record. -/
def mergeSpecModel (domInterfaces : List DomIface)
    (agentResult : List AgentIface) : List InterfaceStatus :=
  let agentKept := agentResult.filter (fun a => a.name != "lo")
  let agentPart := agentKept.map (fun a =>
    match domInterfaces.find? (fun d => d.mac == a.mac) with
    | some d =>
      { name := d.aliasName, mac := a.mac, ip := summaryIP a.ips,
        ips := a.ips.map (fun i => i.ip), interfaceName := a.name,
        infoSource := infoSourceDomainAndGA }
    | none =>
      { name := "", mac := a.mac, ip := summaryIP a.ips,
        ips := a.ips.map (fun i => i.ip), interfaceName := a.name,
        infoSource := infoSourceGuestAgent })
  let domPart := (domInterfaces.filter
      (fun d => agentKept.all (fun a => a.mac != d.mac))).map
    (fun d => { name := d.aliasName, mac := d.mac,
                infoSource := infoSourceDomain })
  agentPart ++ domPart

end agentpoller

namespace infraconfigurators

/-- The calls `configurePodNic` performs when nothing fails. -/
def podNicCalls (cfg : PrepCfg) : List HCall :=
  [.linkSetDown] ++
  (if cfg.ipv4Enabled then [HCall.addrDel .ipv4] else []) ++
  (if cfg.ipv6Enabled then [HCall.addrDel .ipv6] else []) ++
  [.setRandomMac, .linkSetUp .pod]

/-- The calls `createTapDevice` performs when nothing fails. -/
def tapCalls : List HCall :=
  [.createTapDevice, .linkByName .tap, .linkSetUp .tap]

/-- The calls `createBridge` performs when nothing fails. -/
def bridgeCalls (cfg : PrepCfg) : List HCall :=
  [.linkAdd, .linkSetMaster, .linkSetUp .bridge] ++
  (if cfg.ipv4Enabled then [HCall.addrAdd .ipv4] else []) ++
  (if cfg.ipv6Enabled then [HCall.addrAdd .ipv6] else []) ++
  [.linkByName .bridge]

/-- The calls `createNATRulesForReservedPorts` performs for one family
when nothing fails, for the NAT backend the oracle reports available. -/
def natCalls (ora : HCall → Bool) (proto : Proto) (ports : List Port) :
    List HCall :=
  [.configureIpForwarding proto] ++
  (if ora (.nftablesLoad proto) then
     HCall.nftablesLoad proto ::
       ports.map (fun port => .nftablesAppendRule proto port.port (protoToken port))
   else if ora (.hasNatIptables proto) then
     [HCall.nftablesLoad proto, HCall.hasNatIptables proto] ++
       ports.map (fun port => .iptablesAppendRule proto port.port (protoToken port))
   else [HCall.nftablesLoad proto, HCall.hasNatIptables proto]) ++
  [.routeAdd (.defaultGw proto), .neighAdd (.gatewayPin proto),
   .routeAdd (.podIPOnBridge proto)]

/-- The calls `configureNeighbourReply` performs when nothing fails. -/
def neighCalls (cfg : PrepCfg) : List HCall :=
  (if cfg.ipv4Enabled then [HCall.enableIpv4ArpProxy, .neighAdd (.proxyPod .ipv4)]
   else []) ++
  (if cfg.ipv6Enabled then
     [HCall.enableIpv6NdpProxyAll, .enableIpv6NdpProxyIface,
      .neighAdd (.proxyPod .ipv6)]
   else [])

/-- The full ordered call sequence of a Prepare in which no call fails:
pod NIC, tap, bridge, IPv4 NAT/route/neighbor rules, IPv6 ditto, neighbor
proxying. -/
def fullPrepareTrace (cfg : PrepCfg) (unmarshalPorts : String → List Port)
    (ora : HCall → Bool) : List HCall :=
  let ports := reservedPortsInPod unmarshalPorts cfg.annots
  podNicCalls cfg ++ tapCalls ++ bridgeCalls cfg ++
  (if cfg.ipv4Enabled then natCalls ora .ipv4 ports else []) ++
  (if cfg.ipv6Enabled then natCalls ora .ipv6 ports else []) ++
  neighCalls cfg

/-- A run `m` behaves as the strictly ordered, abort-on-first-error
execution of the planned call list `full` under oracle `ora`:
the performed calls are a take-k of the plan (ordering, and
nothing performed past the failure point); on success the whole plan ran;
a returned error is exactly the last performed, non-ignored call, failed
by the oracle; and on success every performed call either succeeded or
was one whose outcome Prepare ignores. -/
def RunsLike (m : Run) (full : List HCall) (ora : HCall → Bool) : Prop :=
  (∃ k, m.1 = full.take k) ∧
  (m.2 = none → m.1 = full) ∧
  (∀ c, m.2 = some c →
    m.1.getLast? = some c ∧ ora c = false ∧ ¬ Ignored c) ∧
  (m.2 = none → ∀ c ∈ m.1, ora c = false → Ignored c)

end infraconfigurators

namespace agentpoller

/-- A well-formed wrapped agent reply: the characters of
`{"return": []}` (braces written as character literals). -/
def wrappedReply : List Char :=
  ['{', '"', 'r', 'e', 't', 'u', 'r', 'n', '"', ':', ' ', '[', ']', '}']

/-- The hypervisor interface list of the spec's merge example (§8). -/
def exampleDomIfaces : List DomIface := [⟨"aa:bb", "eth0"⟩]

/-- The agent interface list of the spec's merge example (§8), with a
loopback entry added. -/
def exampleAgentIfaces : List AgentIface :=
  [⟨"aa:bb", [⟨"10.0.0.5", "ipv4", 0⟩], "ens3"⟩,
   ⟨"cc:dd", [⟨"10.0.0.6", "ipv4", 0⟩], "ens4"⟩,
   ⟨"00:00:00:00:00:00", [], "lo"⟩]

/-- Two hypervisor interfaces sharing one alias: the input on which the
merge drops an unmatched hypervisor interface. -/
def dupAliasDomIfaces : List DomIface := [⟨"aa", "eth0"⟩, ⟨"bb", "eth0"⟩]

/-- A single agent entry matching only the first of the two. -/
def dupAliasAgentIfaces : List AgentIface := [⟨"aa", [], "e1"⟩]

end agentpoller

namespace infraconfigurators

/-- A Discover environment with IPv6 enabled whose IPv6 route list is
empty: the route check fails after the sysctl flags were set. -/
def zeroRoutesV6Env : DiscoverEnv where
  linkOk := true
  readAddrsOk := true
  ipv4Addr := none
  ipv6Addr := some "fd00::2"
  enableFlagsOk := true
  routeListOk := fun _ => true
  routes := fun _ => []
  gatewayOk := fun _ => true
  specMacOk := true

/-- A dual-stack router state with a learned IPv6 default gateway. -/
def exampleRouterState : RouterState where
  ipv4Enabled := false
  ipv6Enabled := true
  vmMac := "02:00:00:00:00:01"
  podIPv4Addr := ""
  podIPv6Addr := "fd00::2"
  podIfaceIPv4Routes := []
  podIfaceIPv6Routes := []
  defaultIPv4Gateway := ""
  defaultIPv6Gateway := "fe80::1"

end infraconfigurators

namespace infraconfigurators

/-- C2 (amended): `reservedPortsInPod` returns the built-in defaults
(exactly VNC 5900/TCP and 5901/TCP) exactly when the
`kubevirt.io/reserved-ports` value is absent; when the value is
present the result is exactly the slice `json.Unmarshal` left (the
empty list when unmarshalling failed at the top level), and the VNC
defaults are never added to it. -/
theorem reservedPorts_contract (unmarshalPorts : String → List Port)
    (annots : List (String × String)) :
    default_reserved_ports = [⟨"vnc", 5900, "TCP"⟩, ⟨"vnc-ws", 5901, "TCP"⟩] ∧
    (lookupAnn annots RESERVED_PORTS_KEY = none →
      reservedPortsInPod unmarshalPorts annots = default_reserved_ports) ∧
    (∀ data, lookupAnn annots RESERVED_PORTS_KEY = some data →
      reservedPortsInPod unmarshalPorts annots = unmarshalPorts data) := by
  refine ⟨rfl, fun h => ?_, fun data h => ?_⟩
  · simp [reservedPortsInPod, h]
  · simp [reservedPortsInPod, h]

/-- C2 counterexample: with the value set to `garbage` — unparsable, a
JSON syntax error leaves the pre-made empty slice untouched — the
returned reserved-port list is empty, not the built-in default list the
claim requires. -/
theorem reservedPorts_unparsable_is_empty :
    reservedPortsInPod (fun _ => []) [(RESERVED_PORTS_KEY, "garbage")] = [] ∧
    reservedPortsInPod (fun _ => []) [(RESERVED_PORTS_KEY, "garbage")] ≠
      default_reserved_ports := by
  constructor
  · rfl
  · decide

/-- C4 (amended): for an enabled IPv4 family the DHCP config's gateway is
the fixed link-local proxy address 169.254.75.1; for an enabled IPv6
family the config carries the learned real default IPv6 gateway, not the
fixed fc00:eeee::-style proxy address. -/
theorem dhcp_gateway_fields (b : RouterState) :
    (b.ipv4Enabled = true →
      (GenerateNonRecoverableDHCPConfig b).gateway = localIPv4IP) ∧
    (b.ipv6Enabled = true →
      (GenerateNonRecoverableDHCPConfig b).ipv6Gateway = b.defaultIPv6Gateway) := by
  rcases h4 : b.ipv4Enabled <;> rcases h6 : b.ipv6Enabled <;>
    simp [GenerateNonRecoverableDHCPConfig, h4, h6]

/-- C4 counterexample: an IPv6-enabled state whose learned default
gateway is fe80::1 produces a DHCP config whose IPv6 gateway is that
learned gateway — not the fixed fc00:eeee:eeee:eeee:eeee:eeee:eeee:eeee
proxy address the claim requires. -/
theorem dhcp_ipv6_gateway_is_learned :
    exampleRouterState.ipv6Enabled = true ∧
    (GenerateNonRecoverableDHCPConfig exampleRouterState).ipv6Gateway = "fe80::1" ∧
    (GenerateNonRecoverableDHCPConfig exampleRouterState).ipv6Gateway ≠
      localIPv6IP := by
  refine ⟨rfl, rfl, ?_⟩
  decide

/-- C10: when nftables rule loading fails and no NAT iptables support is
present, `createNATRulesForReservedPorts` installs no DNAT rule for any
reserved port, still adds the gateway route, the permanent gateway
neighbor entry and the pod-IP-to-bridge route, and returns success. -/
theorem nat_backend_missing_skips_rules (ora : HCall → Bool) (proto : Proto)
    (ports : List Port)
    (hf : ora (.configureIpForwarding proto) = true)
    (hn : ora (.nftablesLoad proto) = false)
    (hi : ora (.hasNatIptables proto) = false)
    (hr1 : ora (.routeAdd (.defaultGw proto)) = true)
    (hne : ora (.neighAdd (.gatewayPin proto)) = true)
    (hr2 : ora (.routeAdd (.podIPOnBridge proto)) = true) :
    createNATRulesForReservedPorts ora proto ports =
      ([.configureIpForwarding proto, .nftablesLoad proto, .hasNatIptables proto,
        .routeAdd (.defaultGw proto), .neighAdd (.gatewayPin proto),
        .routeAdd (.podIPOnBridge proto)], none) ∧
    (∀ p t, HCall.nftablesAppendRule proto p t ∉
        (createNATRulesForReservedPorts ora proto ports).1) ∧
    (∀ p t, HCall.iptablesAppendRule proto p t ∉
        (createNATRulesForReservedPorts ora proto ports).1) := by
  have h : createNATRulesForReservedPorts ora proto ports =
      ([.configureIpForwarding proto, .nftablesLoad proto, .hasNatIptables proto,
        .routeAdd (.defaultGw proto), .neighAdd (.gatewayPin proto),
        .routeAdd (.podIPOnBridge proto)], none) := by
    simp [createNATRulesForReservedPorts, seqr, step, hf, hn, hi, hr1, hne, hr2]
  refine ⟨h, fun p t => ?_, fun p t => ?_⟩ <;> simp [h]

/-- C10 witness: the missing-NAT-backend oracle on the default reserved
ports, IPv4. -/
theorem nat_backend_missing_skips_rules_witness :
    createNATRulesForReservedPorts
        (fun c => !(c == HCall.nftablesLoad .ipv4) &&
                  !(c == HCall.hasNatIptables .ipv4))
        .ipv4 default_reserved_ports =
      ([.configureIpForwarding .ipv4, .nftablesLoad .ipv4, .hasNatIptables .ipv4,
        .routeAdd (.defaultGw .ipv4), .neighAdd (.gatewayPin .ipv4),
        .routeAdd (.podIPOnBridge .ipv4)], none) :=
  (nat_backend_missing_skips_rules
    (fun c => !(c == HCall.nftablesLoad .ipv4) &&
              !(c == HCall.hasNatIptables .ipv4))
    .ipv4 default_reserved_ports
    (by decide) (by decide) (by decide) (by decide) (by decide) (by decide)).1

end infraconfigurators

namespace agentpoller

/-- C9 (amended): for every guest-agent reply whose text matches the
`{"return": ...}` wrapping (so `stripRE.FindStringSubmatch` is non-nil),
all seven parse functions terminate normally with a value or an error,
never crashing, whatever the JSON unmarshaller does; a reply that does
not match makes `stripAgentResponse` index a nil match — a runtime
panic, modelled as the `crash` result. -/
theorem parse_no_crash_on_matching_reply (reply : List Char)
    (u1 : List Char → Except String GuestOsInfo)
    (u2 : List Char → Except String (List AgentIface))
    (u3 : List Char → Except String String)
    (u4 : List Char → Except String Timezone)
    (u5 : List Char → Except String (List Filesystem))
    (u6 : List Char → Except String (List User))
    (u7 : List Char → Except String AgentInfo)
    (h : (stripAgentResponse reply).isSome = true) :
    parseGuestOSInfo u1 reply ≠ .crash ∧
    parseInterfaces u2 reply ≠ .crash ∧
    parseHostname u3 reply ≠ .crash ∧
    parseTimezone u4 reply ≠ .crash ∧
    parseFilesystem u5 reply ≠ .crash ∧
    parseUsers u6 reply ≠ .crash ∧
    parseAgent u7 reply ≠ .crash := by
  rcases hs : stripAgentResponse reply with _ | s
  · rw [hs] at h; simp at h
  · refine ⟨?_, ?_, ?_, ?_, ?_, ?_, ?_⟩ <;>
      · simp only [parseGuestOSInfo, parseInterfaces, parseHostname,
          parseTimezone, parseFilesystem, parseUsers, parseAgent,
          parseBody, hs]
        split <;> simp

/-- C9 witness: the concrete wrapped reply with a failing unmarshaller. -/
theorem parse_no_crash_witness :
    parseGuestOSInfo (fun _ => .error "bad json") wrappedReply ≠ .crash ∧
    parseInterfaces (fun _ => .error "bad json") wrappedReply ≠ .crash ∧
    parseHostname (fun _ => .error "bad json") wrappedReply ≠ .crash ∧
    parseTimezone (fun _ => .error "bad json") wrappedReply ≠ .crash ∧
    parseFilesystem (fun _ => .error "bad json") wrappedReply ≠ .crash ∧
    parseUsers (fun _ => .error "bad json") wrappedReply ≠ .crash ∧
    parseAgent (fun _ => .error "bad json") wrappedReply ≠ .crash :=
  parse_no_crash_on_matching_reply wrappedReply
    (fun _ => .error "bad json") (fun _ => .error "bad json")
    (fun _ => .error "bad json") (fun _ => .error "bad json")
    (fun _ => .error "bad json") (fun _ => .error "bad json")
    (fun _ => .error "bad json") (by decide)

/-- C9 counterexample: the reply `garbage` does not match the wrapping
regex, `FindStringSubmatch` returns nil, and indexing `[1]` panics: the
parse functions crash instead of returning a value or an error. -/
theorem parse_crashes_on_unwrapped_reply :
    stripAgentResponse ('g' :: "arbage".data) = none ∧
    parseGuestOSInfo (fun _ => .error "") ('g' :: "arbage".data) = .crash ∧
    parseInterfaces (fun _ => .error "") ('g' :: "arbage".data) = .crash := by
  decide

end agentpoller

namespace ndp

/-- Every Router-Solicitation read in a `Serve` trace is immediately
followed by a send of the fixed advertisement to the all-nodes multicast
address. -/
theorem serve_get_rs_send (sendOk : Nat → Bool) :
    ∀ (reads : List ReadRes) (k i : Nat),
      (Serve sendOk reads k).1.get? i =
          some (.read (.msg .routerSolicitation)) →
      ∃ ok, (Serve sendOk reads k).1.get? (i + 1) =
        some (.send theRA .allNodesMulticast ok)
  | [], _, i => by simp [Serve]
  | .fail e :: _, k, i => by
    rcases i with _ | i <;> simp [Serve]
  | .msg .other :: rest, k, i => by
    rcases i with _ | i
    · simp [Serve]
    · intro h
      simp only [Serve, List.get?_cons_succ] at h ⊢
      exact serve_get_rs_send sendOk rest k i h
  | .msg .routerSolicitation :: rest, k, i => by
    by_cases hk : sendOk k
    · rcases i with _ | _ | i
      · intro _
        exact ⟨true, by simp [Serve, hk]⟩
      · simp [Serve, hk]
      · intro h
        simp only [Serve, hk, if_true, List.get?_cons_succ] at h ⊢
        exact serve_get_rs_send sendOk rest (k + 1) i h
    · rcases i with _ | _ | i
      · intro _
        exact ⟨false, by simp [Serve, hk]⟩
      · simp [Serve, hk]
      · simp [Serve, hk]

/-- Every send in a `Serve` trace carries the fixed advertisement, goes
to the all-nodes multicast address, and immediately follows a
Router-Solicitation read. -/
theorem serve_get_send_prev (sendOk : Nat → Bool) :
    ∀ (reads : List ReadRes) (k i : Nat) (ra : RA) (d : Dst) (ok : Bool),
      (Serve sendOk reads k).1.get? i = some (.send ra d ok) →
      ra = theRA ∧ d = .allNodesMulticast ∧
      ∃ j, i = j + 1 ∧ (Serve sendOk reads k).1.get? j =
        some (.read (.msg .routerSolicitation))
  | [], _, i, ra, d, ok => by simp [Serve]
  | .fail e :: _, k, i, ra, d, ok => by
    rcases i with _ | i <;> simp [Serve]
  | .msg .other :: rest, k, i, ra, d, ok => by
    rcases i with _ | i
    · simp [Serve]
    · intro h
      simp only [Serve, List.get?_cons_succ] at h
      obtain ⟨hra, hd, j, hj, hget⟩ := serve_get_send_prev sendOk rest k i ra d ok h
      refine ⟨hra, hd, j + 1, by omega, ?_⟩
      simp only [Serve, List.get?_cons_succ]
      exact hget
  | .msg .routerSolicitation :: rest, k, i, ra, d, ok => by
    by_cases hk : sendOk k = true
    · rcases i with _ | _ | i
      · intro h
        simp only [Serve, if_pos hk, List.get?_cons_zero] at h
        simp at h
      · intro h
        simp only [Serve, if_pos hk, List.get?_cons_succ, List.get?_cons_zero,
          Option.some.injEq, Ev.send.injEq] at h
        refine ⟨h.1.symm, h.2.1.symm, 0, rfl, ?_⟩
        simp only [Serve, if_pos hk, List.get?_cons_zero]
      · intro h
        simp only [Serve, if_pos hk, List.get?_cons_succ] at h
        obtain ⟨hra, hd, j, hj, hget⟩ :=
          serve_get_send_prev sendOk rest (k + 1) i ra d ok h
        refine ⟨hra, hd, j + 2, by omega, ?_⟩
        simp only [Serve, if_pos hk, List.get?_cons_succ]
        exact hget
    · rcases i with _ | _ | i
      · intro h
        simp only [Serve, if_neg hk, List.get?_cons_zero] at h
        simp at h
      · intro h
        simp only [Serve, if_neg hk, List.get?_cons_succ, List.get?_cons_zero,
          Option.some.injEq, Ev.send.injEq] at h
        refine ⟨h.1.symm, h.2.1.symm, 0, rfl, ?_⟩
        simp only [Serve, if_neg hk, List.get?_cons_zero]
      · intro h
        simp only [Serve, if_neg hk] at h
        simp at h

/-- A read error ends the `Serve` trace at that very read. -/
theorem serve_readErr_last (sendOk : Nat → Bool) :
    ∀ (reads : List ReadRes) (k e : Nat),
      (Serve sendOk reads k).2 = .readErr e →
      (Serve sendOk reads k).1.getLast? = some (.read (.fail e))
  | [], _, e => by simp [Serve]
  | .fail e0 :: _, k, e => by
    intro h
    simp only [Serve, Outcome.readErr.injEq] at h
    simp [Serve, h]
  | .msg .other :: rest, k, e => by
    intro h
    simp only [Serve] at h
    have ih := serve_readErr_last sendOk rest k e h
    have hne : (Serve sendOk rest k).1 ≠ [] := by
      intro h0
      rw [h0] at ih
      simp at ih
    simp only [Serve]
    rw [show Ev.read (ReadRes.msg NDPMsg.other) :: (Serve sendOk rest k).1 =
          [Ev.read (ReadRes.msg NDPMsg.other)] ++ (Serve sendOk rest k).1 from rfl,
        List.getLast?_append_of_ne_nil _ hne]
    exact ih
  | .msg .routerSolicitation :: rest, k, e => by
    by_cases hk : sendOk k = true
    · intro h
      simp only [Serve, if_pos hk] at h
      have ih := serve_readErr_last sendOk rest (k + 1) e h
      have hne : (Serve sendOk rest (k + 1)).1 ≠ [] := by
        intro h0
        rw [h0] at ih
        simp at ih
      simp only [Serve, if_pos hk]
      rw [show Ev.read (ReadRes.msg NDPMsg.routerSolicitation) ::
              Ev.send theRA Dst.allNodesMulticast true :: (Serve sendOk rest (k + 1)).1 =
            [Ev.read (ReadRes.msg NDPMsg.routerSolicitation),
             Ev.send theRA Dst.allNodesMulticast true] ++ (Serve sendOk rest (k + 1)).1 from rfl,
          List.getLast?_append_of_ne_nil _ hne]
      exact ih
    · intro h
      simp [Serve, if_neg hk] at h

end ndp

namespace ndp

/-- C8: in every execution of the `Serve` loop, a received Router
Solicitation triggers exactly one Router Advertisement — the fixed
advertisement with router lifetime 65535 seconds and infinite reachable
time — sent to the all-nodes multicast address before the loop reads
again (the event after an RS read is that send, and every send
immediately follows an RS read, so non-RouterSolicitation messages
trigger no send and no RS triggers two); and a read error terminates the
loop as its last event and is returned to the caller. -/
theorem serve_solicitation_reply_contract (sendOk : Nat → Bool)
    (reads : List ReadRes) (k : Nat) :
    theRA.routerLifetime = routerAdvertisementMaxLifetime ∧
    theRA.reachableTime = ndpInfinity ∧
    (∀ i, (Serve sendOk reads k).1.get? i =
        some (.read (.msg .routerSolicitation)) →
      ∃ ok, (Serve sendOk reads k).1.get? (i + 1) =
        some (.send theRA .allNodesMulticast ok)) ∧
    (∀ i ra d ok, (Serve sendOk reads k).1.get? i = some (.send ra d ok) →
      ra = theRA ∧ d = .allNodesMulticast ∧
      ∃ j, i = j + 1 ∧ (Serve sendOk reads k).1.get? j =
        some (.read (.msg .routerSolicitation))) ∧
    (∀ e, (Serve sendOk reads k).2 = .readErr e →
      (Serve sendOk reads k).1.getLast? = some (.read (.fail e))) :=
  ⟨rfl, rfl,
   fun i => serve_get_rs_send sendOk reads k i,
   fun i ra d ok => serve_get_send_prev sendOk reads k i ra d ok,
   fun e => serve_readErr_last sendOk reads k e⟩

end ndp

namespace ssc

/-- Characterization of the `ParseNameservers` scan loop: the IPv6 list
collects the IPv6 parses of `nameserver` lines; the IPv4 list collects
the IPv4 parses of those `nameserver` lines the IPv6 parse rejected. -/
theorem parseNSLoop_eq (pIPv6 pIPv4 : String → Option IPStr) :
    ∀ lines : List String,
      parseNSLoop pIPv6 pIPv4 lines =
        (lines.filterMap (fun line =>
           if hasPref nameserverKw.data line.data = true ∧ pIPv6 line = none
           then pIPv4 line else none),
         lines.filterMap (fun line =>
           if hasPref nameserverKw.data line.data = true
           then pIPv6 line else none))
  | [] => rfl
  | line :: rest => by
    have ih := parseNSLoop_eq pIPv6 pIPv4 rest
    by_cases hp : hasPref nameserverKw.data line.data = true
    · rcases hv6 : pIPv6 line with _ | ns6
      · rcases hv4 : pIPv4 line with _ | ns4 <;>
          simp [parseNSLoop, ih, hp, hv6, hv4]
      · simp [parseNSLoop, ih, hp, hv6]
    · simp [parseNSLoop, ih, hp]

/-- C6 (amended): when no line of the text overflows the scanner's
64 KiB token limit, `ParseNameservers` returns without error: only lines
starting with `nameserver` are considered, each classified as IPv6 first
and IPv4 only when the IPv6 parse rejects it, unparsable lines are
skipped, and the returned pair is never both empty — the single default
IPv4 nameserver 8.8.8.8 is injected when nothing parsed. A text with an
over-limit line instead makes the scanner fail with `ErrTooLong`, and
the error is returned with the (possibly both-empty) partial lists. -/
theorem parseNameservers_contract (pIPv6 pIPv4 : String → Option IPStr)
    (text : List Char) (hok : (scanLines text).2 = false) :
    ParseNameservers pIPv6 pIPv4 text =
      (let v4 := (scanLines text).1.filterMap (fun l =>
           if hasPref nameserverKw.data l = true ∧ pIPv6 (String.mk l) = none
           then pIPv4 (String.mk l) else none)
       let v6 := (scanLines text).1.filterMap (fun l =>
           if hasPref nameserverKw.data l = true
           then pIPv6 (String.mk l) else none)
       if v4 = [] ∧ v6 = [] then ([defaultIPv4DNS], [], false)
       else (v4, v6, false)) ∧
    ¬ ((ParseNameservers pIPv6 pIPv4 text).1 = [] ∧
       (ParseNameservers pIPv6 pIPv4 text).2.1 = []) := by
  have hl : parseNSLoop pIPv6 pIPv4
      ((scanLines text).1.map (fun l => String.mk l)) =
      ((scanLines text).1.filterMap (fun l =>
         if hasPref nameserverKw.data l = true ∧ pIPv6 (String.mk l) = none
         then pIPv4 (String.mk l) else none),
       (scanLines text).1.filterMap (fun l =>
         if hasPref nameserverKw.data l = true
         then pIPv6 (String.mk l) else none)) := by
    rw [parseNSLoop_eq, List.filterMap_map, List.filterMap_map]
    rfl
  have hmain : ParseNameservers pIPv6 pIPv4 text =
      (let v4 := (scanLines text).1.filterMap (fun l =>
           if hasPref nameserverKw.data l = true ∧ pIPv6 (String.mk l) = none
           then pIPv4 (String.mk l) else none)
       let v6 := (scanLines text).1.filterMap (fun l =>
           if hasPref nameserverKw.data l = true
           then pIPv6 (String.mk l) else none)
       if v4 = [] ∧ v6 = [] then ([defaultIPv4DNS], [], false)
       else (v4, v6, false)) := by
    simp only [ParseNameservers]
    rw [hok, if_neg Bool.false_ne_true, hl]
  refine ⟨hmain, ?_⟩
  rw [hmain]
  dsimp only
  split
  · simp [defaultIPv4DNS]
  · rename_i hcond
    intro hboth
    exact hcond hboth

/-- C6 witness: a two-line text whose nameserver line parses nothing —
the scan succeeds, the default nameserver is injected, so the result is
not both-empty. -/
theorem parseNameservers_contract_witness :
    ¬ ((ParseNameservers (fun _ => none) (fun _ => none)
          ("nameserver junk\nfoo").data).1 = [] ∧
       (ParseNameservers (fun _ => none) (fun _ => none)
          ("nameserver junk\nfoo").data).2.1 = []) :=
  (parseNameservers_contract (fun _ => none) (fun _ => none)
    ("nameserver junk\nfoo").data (by decide)).2

/-- From a failed scan state the scanner does nothing further (`Scan`
has returned false; the caller's loop has exited). -/
theorem foldl_scanStep_errored :
    ∀ (l : List Char) (st : ScanSt), st.errored = true →
      l.foldl scanStep st = st
  | [], _, _ => rfl
  | c :: t, st, h => by
    have hstep : scanStep st c = st := by
      simp [scanStep, h]
    rw [List.foldl_cons, hstep]
    exact foldl_scanStep_errored t st h

/-- A long-enough run of non-newline bytes drives the scanner into the
`ErrTooLong` state, producing no further token. -/
theorem foldl_scanStep_replicate :
    ∀ (n : Nat) (st : ScanSt), st.errored = false →
      st.curLen < maxScanTokenSize → maxScanTokenSize ≤ st.curLen + n →
      ((List.replicate n 'a').foldl scanStep st).errored = true ∧
      ((List.replicate n 'a').foldl scanStep st).linesRev = st.linesRev
  | 0, st, he, hlt, hge => by
    exfalso
    omega
  | n + 1, st, he, hlt, hge => by
    rw [List.replicate_succ, List.foldl_cons]
    have hanl : (('a' : Char) == '\n') = false := by decide
    by_cases hfull : maxScanTokenSize ≤ st.curLen + 1
    · have hstep : scanStep st 'a' = { st with errored := true } := by
        simp [scanStep, he, hanl, hfull]
      rw [hstep, foldl_scanStep_errored _ _ rfl]
      exact ⟨rfl, rfl⟩
    · have hstep : scanStep st 'a' =
          { st with curRev := 'a' :: st.curRev, curLen := st.curLen + 1 } := by
        simp [scanStep, he, hanl, hfull]
      rw [hstep]
      exact foldl_scanStep_replicate n _ he
        (by show st.curLen + 1 < maxScanTokenSize; omega)
        (by show maxScanTokenSize ≤ st.curLen + 1 + n; omega)

/-- C6 counterexample: a resolv.conf text consisting of one 65536-byte
line overflows the scanner's token buffer: `Scan` fails with
`ErrTooLong` and `ParseNameservers` returns the error with BOTH
nameserver lists empty, refuting the claim's "for every input text ...
returns without error a pair ... never both empty". -/
theorem parseNameservers_errTooLong :
    ParseNameservers (fun _ => none) (fun _ => none)
      (List.replicate maxScanTokenSize 'a') = ([], [], true) := by
  obtain ⟨herr, hlines⟩ := foldl_scanStep_replicate maxScanTokenSize
    ⟨[], [], 0, false⟩ rfl (by decide) (by omega)
  have hscan : scanLines (List.replicate maxScanTokenSize 'a') = ([], true) := by
    simp only [scanLines, herr, hlines, if_true]
    rfl
  simp only [ParseNameservers]
  rw [hscan]
  rfl

end ssc

namespace ssc

/-- The selection loop of `GetDomainName` picks either its initial value
(when nothing is strictly longer) or the first entry of maximal length. -/
theorem foldl_longest_char (l : List (List Char)) :
    ∀ init : List Char,
      (l.foldl (fun selected d =>
          if selected.length < d.length then d else selected) init = init ∧
        ∀ d ∈ l, d.length ≤ init.length) ∨
      (∃ i r, l.get? i = some r ∧
        l.foldl (fun selected d =>
          if selected.length < d.length then d else selected) init = r ∧
        init.length < r.length ∧ (∀ d ∈ l, d.length ≤ r.length) ∧
        (∀ j, j < i → ∀ d, l.get? j = some d → d.length < r.length)) := by
  induction l with
  | nil => intro init; left; exact ⟨rfl, by simp⟩
  | cons x t ih =>
    intro init
    by_cases hx : init.length < x.length
    · rcases ih x with ⟨heq, hall⟩ | ⟨i, r, hget, heq, hlt, hall, hpre⟩
      · right
        refine ⟨0, x, rfl, ?_, hx, ?_, ?_⟩
        · simpa [hx] using heq
        · intro d hd
          rcases List.mem_cons.mp hd with h | h
          · exact h ▸ le_refl _
          · exact hall d h
        · intro j hj
          omega
      · right
        refine ⟨i + 1, r, by simpa using hget, ?_, ?_, ?_, ?_⟩
        · simpa [hx] using heq
        · omega
        · intro d hd
          rcases List.mem_cons.mp hd with h | h
          · exact h ▸ le_of_lt hlt
          · exact hall d h
        · intro j hj d hd
          rcases j with _ | j
          · simp at hd
            exact hd ▸ hlt
          · exact hpre j (by omega) d (by simpa using hd)
    · rcases ih init with ⟨heq, hall⟩ | ⟨i, r, hget, heq, hlt, hall, hpre⟩
      · left
        refine ⟨by simpa [hx] using heq, ?_⟩
        intro d hd
        rcases List.mem_cons.mp hd with h | h
        · exact h ▸ Nat.not_lt.mp hx
        · exact hall d h
      · right
        refine ⟨i + 1, r, by simpa using hget, by simpa [hx] using heq, hlt, ?_, ?_⟩
        · intro d hd
          rcases List.mem_cons.mp hd with h | h
          · subst h
            omega
          · exact hall d h
        · intro j hj d hd
          rcases j with _ | j
          · simp at hd
            subst hd
            omega
          · exact hpre j (by omega) d (by simpa using hd)

end ssc

namespace ssc

/-- A string containing a nonempty token is nonempty. -/
theorem containsSub_ne_nil {pat d : List Char} (hp : pat ≠ [])
    (h : containsSub pat d = true) : d ≠ [] := by
  intro hd
  subst hd
  rcases pat with _ | ⟨c, ps⟩
  · exact hp rfl
  · simp [containsSub, hasPref] at h

/-- The longest service domain: a member of the service-domain list, of
maximal length, with every earlier entry strictly shorter, and nonempty. -/
theorem getLongestServiceDomainName_spec (doms : List (List Char))
    (hne : GetServiceDomainList doms ≠ []) :
    ∃ i r, (GetServiceDomainList doms).get? i = some r ∧
      GetLongestServiceDomainName doms = r ∧ r ≠ [] ∧
      (∀ d ∈ GetServiceDomainList doms, d.length ≤ r.length) ∧
      (∀ j, j < i → ∀ d, (GetServiceDomainList doms).get? j = some d →
        d.length < r.length) := by
  rcases foldl_longest_char (GetServiceDomainList doms) [] with
    ⟨heq, hall⟩ | ⟨i, r, hget, heq, _, hall, hpre⟩
  · exfalso
    rcases List.exists_mem_of_ne_nil _ hne with ⟨x, hx⟩
    have hsvc : containsSub svcTok x = true := List.of_mem_filter hx
    have hxne : x ≠ [] := containsSub_ne_nil (by simp [svcTok]) hsvc
    have := hall x hx
    simp at this
    exact hxne this
  · refine ⟨i, r, hget, heq, ?_, hall, hpre⟩
    have hmem : r ∈ GetServiceDomainList doms := List.get?_mem hget
    exact containsSub_ne_nil (by simp [svcTok]) (List.of_mem_filter hmem)

/-- C7: `DomainNameWithSubdomain` returns the empty string when the
subdomain is empty, when no search domain contains the `.svc.` token, or
when the longest such service domain already begins with the subdomain
followed by a dot; otherwise it returns the subdomain, a dot and the
longest service domain — longest by character count, earlier entries of
equal length never chosen (first occurrence wins ties). -/
theorem domainNameWithSubdomain_contract (doms : List (List Char))
    (sub : List Char) :
    (sub = [] → DomainNameWithSubdomain doms sub = []) ∧
    (GetServiceDomainList doms = [] → DomainNameWithSubdomain doms sub = []) ∧
    (hasPref (sub ++ ['.']) (GetLongestServiceDomainName doms) = true →
      DomainNameWithSubdomain doms sub = []) ∧
    (sub ≠ [] → GetServiceDomainList doms ≠ [] →
      hasPref (sub ++ ['.']) (GetLongestServiceDomainName doms) = false →
      DomainNameWithSubdomain doms sub =
        sub ++ '.' :: GetLongestServiceDomainName doms) ∧
    (GetServiceDomainList doms ≠ [] →
      ∃ i r, (GetServiceDomainList doms).get? i = some r ∧
        GetLongestServiceDomainName doms = r ∧
        (∀ d ∈ GetServiceDomainList doms, d.length ≤ r.length) ∧
        (∀ j, j < i → ∀ d, (GetServiceDomainList doms).get? j = some d →
          d.length < r.length)) ∧
    (∀ d, d ∈ GetServiceDomainList doms ↔
      (d ∈ doms ∧ containsSub svcTok d = true)) := by
  refine ⟨?_, ?_, ?_, ?_, ?_, ?_⟩
  · intro h
    simp [DomainNameWithSubdomain, h]
  · intro h
    simp [DomainNameWithSubdomain, GetLongestServiceDomainName, h, GetDomainName]
  · intro h
    by_cases hs : sub = []
    · simp [DomainNameWithSubdomain, hs]
    · simp [DomainNameWithSubdomain, hs, h]
  · intro hs hsvc hp
    obtain ⟨i, r, hget, heq, hrne, hall, hpre⟩ :=
      getLongestServiceDomainName_spec doms hsvc
    rw [heq] at hp
    simp [DomainNameWithSubdomain, hs, heq, hrne, hp]
  · intro hsvc
    obtain ⟨i, r, hget, heq, _, hall, hpre⟩ :=
      getLongestServiceDomainName_spec doms hsvc
    exact ⟨i, r, hget, heq, hall, hpre⟩
  · intro d
    simp [GetServiceDomainList]

end ssc

namespace infraconfigurators

/-- A single non-ignored handler call runs like its one-call plan. -/
theorem runsLike_step (ora : HCall → Bool) (c : HCall) (hni : ¬ Ignored c) :
    RunsLike (step ora c) [c] ora := by
  by_cases hc : ora c = true
  · refine ⟨⟨1, by simp [step, hc]⟩, fun _ => by simp [step], ?_, ?_⟩
    · intro c2 h
      simp [step, hc] at h
    · intro _ c2 hc2 hfalse
      simp [step] at hc2
      subst hc2
      rw [hc] at hfalse
      cases hfalse
  · have hcf : ora c = false := by rwa [Bool.not_eq_true] at hc
    refine ⟨⟨1, by simp [step, hcf]⟩, ?_, ?_, ?_⟩
    · intro h
      simp [step, hcf] at h
    · intro c2 h
      simp only [step, hcf] at h
      simp at h
      subst h
      exact ⟨by simp [step, hcf], hcf, hni⟩
    · intro h
      simp [step, hcf] at h

/-- A block of calls whose outcomes Prepare ignores runs like its plan
and never fails. -/
theorem runsLike_free (ora : HCall → Bool) (l : List HCall)
    (hig : ∀ c ∈ l, Ignored c) : RunsLike (l, none) l ora := by
  refine ⟨⟨l.length, by simp⟩, fun _ => rfl, ?_, ?_⟩
  · intro c h
    cases h
  · intro _ c hc _
    exact hig c hc

/-- Sequencing preserves `RunsLike`, concatenating the plans. -/
theorem runsLike_seqr {ora : HCall → Bool} {a b : Run} {fa fb : List HCall}
    (ha : RunsLike a fa ora) (hb : RunsLike b fb ora) :
    RunsLike (seqr a fun _ => b) (fa ++ fb) ora := by
  rcases a with ⟨tra, ea⟩
  rcases b with ⟨trb, eb⟩
  obtain ⟨⟨k, hk⟩, ha2, ha3, ha4⟩ := ha
  obtain ⟨⟨k2, hk2⟩, hb2, hb3, hb4⟩ := hb
  dsimp only at hk hk2
  rcases ea with _ | e
  · have htra : tra = fa := ha2 rfl
    show RunsLike (tra ++ trb, eb) (fa ++ fb) ora
    refine ⟨⟨fa.length + k2, ?_⟩, ?_, ?_, ?_⟩
    · show tra ++ trb = (fa ++ fb).take (fa.length + k2)
      rw [List.take_append, hk2, htra]
    · intro h
      have htrb : trb = fb := hb2 h
      show tra ++ trb = fa ++ fb
      rw [htrb, htra]
    · intro c h
      obtain ⟨hlast, hora, hni⟩ := hb3 c h
      dsimp only at hlast
      refine ⟨?_, hora, hni⟩
      have hne : trb ≠ [] := by
        intro h0
        rw [h0] at hlast
        cases hlast
      show (tra ++ trb).getLast? = some c
      rw [List.getLast?_append_of_ne_nil _ hne]
      exact hlast
    · intro h c hc hfalse
      rcases List.mem_append.mp hc with hm | hm
      · exact ha4 rfl c hm hfalse
      · exact hb4 h c hm hfalse
  · show RunsLike (tra, some e) (fa ++ fb) ora
    obtain ⟨hlast, hora, hni⟩ := ha3 e rfl
    dsimp only at hlast
    refine ⟨?_, ?_, ?_, ?_⟩
    · by_cases hkl : k ≤ fa.length
      · exact ⟨k, by rw [show (tra, some e).1 = tra from rfl, hk,
          List.take_append_of_le_length hkl]⟩
      · refine ⟨fa.length, ?_⟩
        show tra = (fa ++ fb).take fa.length
        rw [hk, List.take_of_length_le (by omega),
          List.take_append_of_le_length (le_refl _),
          List.take_of_length_le (le_refl _)]
    · intro h
      cases h
    · intro c h
      obtain rfl : e = c := by injection h
      exact ⟨hlast, hora, hni⟩
    · intro h
      cases h

end infraconfigurators

namespace infraconfigurators

/-- Transport `RunsLike` along equalities of the run and of the plan. -/
theorem runsLike_congr {ora : HCall → Bool} {m m2 : Run} {f f2 : List HCall}
    (hm : m2 = m) (hf : f2 = f) (h : RunsLike m f ora) : RunsLike m2 f2 ora := by
  subst hm
  subst hf
  exact h

/-- A conditional fragment runs like its conditional plan. -/
theorem runsLike_if {ora : HCall → Bool} (b : Bool) {m : Run} {f : List HCall}
    (h : RunsLike m f ora) :
    RunsLike (if b then m else ([], none)) (if b then f else []) ora := by
  cases b
  · simpa using runsLike_free ora [] (by simp)
  · simpa using h

/-- Membership in a conditional singleton. -/
theorem mem_if_singleton {c x : HCall} {b : Bool}
    (h : c ∈ (if b then [x] else [])) : c = x := by
  cases b
  · simp at h
  · simpa using h

/-- `configurePodNic` runs like its planned call list. -/
theorem runsLike_configurePodNic (cfg : PrepCfg) (ora : HCall → Bool) :
    RunsLike (configurePodNic cfg ora) (podNicCalls cfg) ora := by
  have haddr : ∀ c ∈ (if cfg.ipv4Enabled then [HCall.addrDel .ipv4] else []) ++
      (if cfg.ipv6Enabled then [HCall.addrDel .ipv6] else []), Ignored c := by
    intro c hc
    rcases List.mem_append.mp hc with hm | hm
    · rw [mem_if_singleton hm]
      trivial
    · rw [mem_if_singleton hm]
      trivial
  have h := runsLike_seqr (runsLike_step ora .linkSetDown (by simp [Ignored]))
    (runsLike_seqr (runsLike_free ora _ haddr)
      (runsLike_seqr (runsLike_step ora .setRandomMac (by simp [Ignored]))
        (runsLike_step ora (.linkSetUp .pod) (by simp [Ignored]))))
  exact runsLike_congr (by simp [configurePodNic]) (by simp [podNicCalls]) h

/-- `createTapDevice` runs like its planned call list. -/
theorem runsLike_createTapDevice (ora : HCall → Bool) :
    RunsLike (createTapDevice ora) tapCalls ora := by
  have h := runsLike_seqr (runsLike_step ora .createTapDevice (by simp [Ignored]))
    (runsLike_seqr (runsLike_step ora (.linkByName .tap) (by simp [Ignored]))
      (runsLike_step ora (.linkSetUp .tap) (by simp [Ignored])))
  exact runsLike_congr (by simp [createTapDevice]) (by simp [tapCalls]) h

/-- `createBridge` runs like its planned call list. -/
theorem runsLike_createBridge (cfg : PrepCfg) (ora : HCall → Bool) :
    RunsLike (createBridge cfg ora) (bridgeCalls cfg) ora := by
  have h := runsLike_seqr (runsLike_step ora .linkAdd (by simp [Ignored]))
    (runsLike_seqr (runsLike_step ora .linkSetMaster (by simp [Ignored]))
      (runsLike_seqr (runsLike_step ora (.linkSetUp .bridge) (by simp [Ignored]))
        (runsLike_seqr
          (runsLike_if cfg.ipv4Enabled
            (runsLike_step ora (.addrAdd .ipv4) (by simp [Ignored])))
          (runsLike_seqr
            (runsLike_if cfg.ipv6Enabled
              (runsLike_step ora (.addrAdd .ipv6) (by simp [Ignored])))
            (runsLike_step ora (.linkByName .bridge) (by simp [Ignored]))))))
  exact runsLike_congr (by simp [createBridge]) (by simp [bridgeCalls]) h

/-- The per-port DNAT rule loop runs like the planned one-rule-per-port
list. -/
theorem runsLike_appendRules (ora : HCall → Bool) (mk : Int → String → HCall)
    (hni : ∀ p t, ¬ Ignored (mk p t)) :
    ∀ ports : List Port, RunsLike (appendRules ora mk ports)
      (ports.map (fun port => mk port.port (protoToken port))) ora
  | [] => by
    simp only [appendRules, List.map_nil]
    exact runsLike_free ora [] (by simp)
  | port :: rest => by
    have h := runsLike_seqr
      (runsLike_step ora (mk port.port (protoToken port)) (hni _ _))
      (runsLike_appendRules ora mk hni rest)
    simp only [List.map_cons]
    exact runsLike_congr (by simp [appendRules]) (by simp) h

/-- `createNATRulesForReservedPorts` runs like `natCalls`. -/
theorem runsLike_createNAT (ora : HCall → Bool) (proto : Proto)
    (ports : List Port) :
    RunsLike (createNATRulesForReservedPorts ora proto ports)
      (natCalls ora proto ports) ora := by
  have hfwd := runsLike_step ora (.configureIpForwarding proto) (by simp [Ignored])
  have hroute1 := runsLike_step ora (.routeAdd (.defaultGw proto)) (by simp [Ignored])
  have hneigh := runsLike_step ora (.neighAdd (.gatewayPin proto)) (by simp [Ignored])
  have hroute2 := runsLike_step ora (.routeAdd (.podIPOnBridge proto)) (by simp [Ignored])
  have hnft := runsLike_appendRules ora (fun p t => .nftablesAppendRule proto p t)
    (by intro p t; simp [Ignored]) ports
  have hipt := runsLike_appendRules ora (fun p t => .iptablesAppendRule proto p t)
    (by intro p t; simp [Ignored]) ports
  by_cases hn : ora (.nftablesLoad proto) = true
  · have hbr := runsLike_seqr
      (runsLike_free ora [HCall.nftablesLoad proto]
        (by intro c hc; simp at hc; subst hc; trivial)) hnft
    have h := runsLike_seqr hfwd (runsLike_seqr hbr
      (runsLike_seqr hroute1 (runsLike_seqr hneigh hroute2)))
    exact runsLike_congr (by simp [createNATRulesForReservedPorts, hn])
      (by simp [natCalls, hn]) h
  · by_cases hi : ora (.hasNatIptables proto) = true
    · have hbr := runsLike_seqr
        (runsLike_free ora [HCall.nftablesLoad proto, HCall.hasNatIptables proto]
          (by intro c hc; simp at hc; rcases hc with h | h <;> (subst h; trivial))) hipt
      have h := runsLike_seqr hfwd (runsLike_seqr hbr
        (runsLike_seqr hroute1 (runsLike_seqr hneigh hroute2)))
      exact runsLike_congr (by simp [createNATRulesForReservedPorts, hn, hi])
        (by simp [natCalls, hn, hi]) h
    · have hbr := runsLike_free ora
        [HCall.nftablesLoad proto, HCall.hasNatIptables proto]
        (by intro c hc; simp at hc; rcases hc with h | h <;> (subst h; trivial))
      have h := runsLike_seqr hfwd (runsLike_seqr hbr
        (runsLike_seqr hroute1 (runsLike_seqr hneigh hroute2)))
      exact runsLike_congr (by simp [createNATRulesForReservedPorts, hn, hi])
        (by simp [natCalls, hn, hi]) h

/-- `configureNeighbourReply` runs like its planned call list. -/
theorem runsLike_configureNeighbourReply (cfg : PrepCfg) (ora : HCall → Bool) :
    RunsLike (configureNeighbourReply cfg ora) (neighCalls cfg) ora := by
  have h4 : RunsLike
      (if cfg.ipv4Enabled then
         seqr (step ora .enableIpv4ArpProxy) fun _ =>
           step ora (.neighAdd (.proxyPod .ipv4))
       else ([], none))
      (if cfg.ipv4Enabled then
         [HCall.enableIpv4ArpProxy, .neighAdd (.proxyPod .ipv4)] else []) ora := by
    have := runsLike_if cfg.ipv4Enabled (runsLike_seqr
      (runsLike_step ora .enableIpv4ArpProxy (by simp [Ignored]))
      (runsLike_step ora (.neighAdd (.proxyPod .ipv4)) (by simp [Ignored])))
    exact runsLike_congr rfl (by cases cfg.ipv4Enabled <;> simp) this
  have h6 : RunsLike
      (if cfg.ipv6Enabled then
         seqr (step ora .enableIpv6NdpProxyAll) fun _ =>
           seqr (step ora .enableIpv6NdpProxyIface) fun _ =>
             step ora (.neighAdd (.proxyPod .ipv6))
       else ([], none))
      (if cfg.ipv6Enabled then
         [HCall.enableIpv6NdpProxyAll, .enableIpv6NdpProxyIface,
          .neighAdd (.proxyPod .ipv6)] else []) ora := by
    have := runsLike_if cfg.ipv6Enabled (runsLike_seqr
      (runsLike_step ora .enableIpv6NdpProxyAll (by simp [Ignored]))
      (runsLike_seqr
        (runsLike_step ora .enableIpv6NdpProxyIface (by simp [Ignored]))
        (runsLike_step ora (.neighAdd (.proxyPod .ipv6)) (by simp [Ignored]))))
    exact runsLike_congr rfl (by cases cfg.ipv6Enabled <;> simp) this
  have h := runsLike_seqr h4 h6
  exact runsLike_congr (by simp [configureNeighbourReply]) (by simp [neighCalls]) h

/-- C1 (amended): `PreparePodNetworkInterface` performs its handler calls
as the strictly ordered planned sequence — pod NIC configuration (link
down, address deletions, MAC randomization, link up), tap creation,
bridge creation and attachment, IPv4 then IPv6 NAT/route/neighbor
installation for the enabled families, then proxy-ARP/NDP neighbor-reply
configuration; its performed calls are always a prefix of that plan; on
an error the failing call is the last one performed, its error is
returned and no later call runs (nothing is rolled back either); the one
amendment against the claim as stated: the address-deletion calls (and
the two NAT-backend probes) cannot abort Prepare — their failures are
ignored — so a run that returns success may still contain failed
`AddrDel` calls. -/
theorem prepare_ordered_abort (cfg : PrepCfg)
    (unmarshalPorts : String → List Port) (ora : HCall → Bool) :
    RunsLike (PreparePodNetworkInterface cfg unmarshalPorts ora)
      (fullPrepareTrace cfg unmarshalPorts ora) ora := by
  have h := runsLike_seqr (runsLike_configurePodNic cfg ora)
    (runsLike_seqr (runsLike_createTapDevice ora)
      (runsLike_seqr (runsLike_createBridge cfg ora)
        (runsLike_seqr (runsLike_if cfg.ipv4Enabled
            (runsLike_createNAT ora .ipv4
              (reservedPortsInPod unmarshalPorts cfg.annots)))
          (runsLike_seqr (runsLike_if cfg.ipv6Enabled
              (runsLike_createNAT ora .ipv6
                (reservedPortsInPod unmarshalPorts cfg.annots)))
            (runsLike_configureNeighbourReply cfg ora)))))
  exact runsLike_congr (by simp [PreparePodNetworkInterface])
    (by simp [fullPrepareTrace]) h

/-- C1 counterexample: with IPv4 enabled and an environment on which the
IPv4 `AddrDel` call fails (and everything else succeeds), Prepare
performs that failing step yet returns success and runs every later
step — the claim's "for every possible failing step, it returns that
step's error and performs none of the later steps" is false for the
address-deletion step. -/
theorem prepare_ignores_addrDel_failure :
    (PreparePodNetworkInterface ⟨true, false, []⟩ (fun _ => [])
        (fun c => !(c == HCall.addrDel Proto.ipv4))).2 = none ∧
    HCall.addrDel Proto.ipv4 ∈
      (PreparePodNetworkInterface ⟨true, false, []⟩ (fun _ => [])
        (fun c => !(c == HCall.addrDel Proto.ipv4))).1 ∧
    (fun c => !(c == HCall.addrDel Proto.ipv4)) (HCall.addrDel Proto.ipv4) = false ∧
    HCall.neighAdd (.proxyPod .ipv4) ∈
      (PreparePodNetworkInterface ⟨true, false, []⟩ (fun _ => [])
        (fun c => !(c == HCall.addrDel Proto.ipv4))).1 := by
  decide

end infraconfigurators

namespace infraconfigurators

/-- A call recorded by a sequenced Discover fragment comes from one of
the two parts. -/
theorem dseq_mem {a : DRun} {k : Unit → DRun} {c : DCall}
    (h : c ∈ (dseq a k).1) : c ∈ a.1 ∨ c ∈ (k ()).1 := by
  rcases a with ⟨tr, e⟩
  rcases e with _ | e
  · exact List.mem_append.mp h
  · exact Or.inl h

/-- Every call of a family's route-learning fragment is a read. -/
theorem learnFamilyRoutes_no_mutation (env : DiscoverEnv) (p : Proto) :
    ∀ c ∈ (learnFamilyRoutes env p).1, isMutation c = false := by
  intro c hc
  by_cases h1 : env.routeListOk p = true
  · by_cases h2 : env.routes p = []
    · simp [learnFamilyRoutes, h1, h2] at hc
      subst hc
      rfl
    · by_cases h3 : env.gatewayOk p = true <;>
        simp [learnFamilyRoutes, dseq, h1, h2, h3] at hc <;>
        rcases hc with h | h <;> (subst h; rfl)
  · simp [learnFamilyRoutes, h1] at hc
    subst hc
    rfl

/-- Every call of `learnInterfaceRoutes` is a read. -/
theorem learnInterfaceRoutes_no_mutation (env : DiscoverEnv) (v4E v6E : Bool) :
    ∀ c ∈ (learnInterfaceRoutes env v4E v6E).1, isMutation c = false := by
  intro c hc
  rcases dseq_mem hc with h | h
  · rcases v4E with _ | _
    · simp at h
    · exact learnFamilyRoutes_no_mutation env .ipv4 c (by simpa using h)
  · rcases v6E with _ | _
    · simp at h
    · exact learnFamilyRoutes_no_mutation env .ipv6 c (by simpa using h)

/-- C3 (amended): when an enabled family has zero routes on the pod link
(and the steps before the route check succeed), Discover fails with the
no-routes error; and the only host-state mutation Discover can have
performed by then is the IPv6 forwarding/proxy-NDP sysctl write, which
runs exactly when IPv6 is enabled — so an IPv4-only discovery is
mutation-free as claimed, but an IPv6-enabled one has already mutated
the sysctl flags when the route check fails. -/
theorem discover_zero_routes (env : DiscoverEnv) :
    (env.linkOk = true → env.readAddrsOk = true →
      (env.ipv6Addr.isSome = true → env.enableFlagsOk = true) →
      env.ipv4Addr.isSome = true → env.routeListOk .ipv4 = true →
      env.routes .ipv4 = [] →
      (DiscoverPodNetworkInterface env).2 = some (.noRoutes .ipv4)) ∧
    (env.linkOk = true → env.readAddrsOk = true → env.enableFlagsOk = true →
      env.ipv6Addr.isSome = true → env.routeListOk .ipv6 = true →
      env.routes .ipv6 = [] →
      (env.ipv4Addr.isSome = true → env.routeListOk .ipv4 = true ∧
        env.routes .ipv4 ≠ [] ∧ env.gatewayOk .ipv4 = true) →
      (DiscoverPodNetworkInterface env).2 = some (.noRoutes .ipv6)) ∧
    (∀ c ∈ (DiscoverPodNetworkInterface env).1, isMutation c = true →
      c = .enableIPv6Flags ∧ env.ipv6Addr.isSome = true) := by
  refine ⟨?_, ?_, ?_⟩
  · intro h1 h2 h3 h4 h5 h6
    by_cases hv6 : env.ipv6Addr.isSome = true
    · have hf := h3 hv6
      simp [DiscoverPodNetworkInterface, dseq, h1, h2, hv6, hf,
        learnInterfaceRoutes, learnFamilyRoutes, h4, h5, h6]
    · have hv6f : env.ipv6Addr.isSome = false := by
        rwa [Bool.not_eq_true] at hv6
      simp [DiscoverPodNetworkInterface, dseq, h1, h2, hv6f,
        learnInterfaceRoutes, learnFamilyRoutes, h4, h5, h6]
  · intro h1 h2 hf h6s h5 h6 h4impl
    by_cases hv4 : env.ipv4Addr.isSome = true
    · obtain ⟨ha, hb, hc2⟩ := h4impl hv4
      simp [DiscoverPodNetworkInterface, dseq, h1, h2, h6s, hf,
        learnInterfaceRoutes, learnFamilyRoutes, hv4, ha, hb, hc2, h5, h6]
    · have hv4f : env.ipv4Addr.isSome = false := by
        rwa [Bool.not_eq_true] at hv4
      simp [DiscoverPodNetworkInterface, dseq, h1, h2, h6s, hf,
        learnInterfaceRoutes, learnFamilyRoutes, hv4f, h5, h6]
  · intro c hc hm
    rcases dseq_mem hc with h | h
    · rcases hl : env.linkOk <;> rw [hl] at h <;> simp at h <;>
        (subst h; cases hm)
    · rcases dseq_mem h with h2 | h2
      · rcases ha : env.readAddrsOk <;> rw [ha] at h2 <;> simp at h2 <;>
          (subst h2; cases hm)
      · rcases dseq_mem h2 with h3 | h3
        · rcases hv6 : env.ipv6Addr.isSome with _ | _
          · rw [hv6] at h3
            simp at h3
          · rw [hv6] at h3
            rcases hfl : env.enableFlagsOk <;> rw [hfl] at h3 <;>
              simp at h3 <;> exact ⟨h3, rfl⟩
        · rcases dseq_mem h3 with h4 | h4
          · have := learnInterfaceRoutes_no_mutation env
              env.ipv4Addr.isSome env.ipv6Addr.isSome c h4
            rw [hm] at this
            cases this
          · simp at h4

/-- C3 counterexample: an IPv6-only pod with zero IPv6 routes — Discover
fails at the route check as the claim says, but by that point the
`EnableIPv6Flags` sysctl write, a host-state mutation, has already been
performed, contradicting "no host-state mutation has been performed ...
for every input". -/
theorem discover_mutates_before_route_check :
    (DiscoverPodNetworkInterface zeroRoutesV6Env).2 =
      some (.noRoutes .ipv6) ∧
    DCall.enableIPv6Flags ∈ (DiscoverPodNetworkInterface zeroRoutesV6Env).1 ∧
    isMutation .enableIPv6Flags = true := by
  decide

end infraconfigurators

namespace agentpoller

/-- `convertInterfaceStatusesFromAgentJSON` is the loopback filter
followed by a per-entry conversion. -/
theorem convert_eq (ag : List AgentIface) :
    convertInterfaceStatusesFromAgentJSON ag =
      (ag.filter (fun a => a.name != "lo")).map (fun a =>
        { mac := a.mac, ip := (extractIPs a.ips).1,
          ips := (extractIPs a.ips).2, interfaceName := a.name }) := by
  induction ag with
  | nil => rfl
  | cons a t ih =>
    by_cases h : a.name = "lo"
    · simp [convertInterfaceStatusesFromAgentJSON, h, ih, List.filter_cons]
    · simp [convertInterfaceStatusesFromAgentJSON, h, ih, List.filter_cons]

/-- The address list collected by the `extractIPs` loop. -/
theorem extractIPsLoop_snd (ips : List AgentIP) :
    ∀ cur acc, (extractIPsLoop ips cur acc).2 = acc ++ ips.map (fun i => i.ip) := by
  induction ips with
  | nil => intro cur acc; simp [extractIPsLoop]
  | cons a t ih => intro cur acc; simp [extractIPsLoop, ih]

/-- A nonempty summary candidate survives the `extractIPs` loop. -/
theorem extractIPsLoop_fst_ne (ips : List AgentIP) :
    ∀ cur acc, cur ≠ "" → (extractIPsLoop ips cur acc).1 = cur := by
  induction ips with
  | nil => intro cur acc _; rfl
  | cons a t ih =>
    intro cur acc h
    have hcur : (cur == "") = false := by
      simp [h]
    simp only [extractIPsLoop, hcur, Bool.and_false, Bool.false_eq_true,
      if_false]
    exact ih _ _ h

/-- Starting empty, the loop's summary is the first `ipv4`-typed address
(provided no reported address is the empty string). -/
theorem extractIPsLoop_fst_empty (ips : List AgentIP)
    (h : ∀ i ∈ ips, i.ip ≠ "") :
    ∀ acc, (extractIPsLoop ips "" acc).1 =
      (match ips.find? (fun i => i.typ == "ipv4") with
       | some i => i.ip
       | none => "") := by
  induction ips with
  | nil => intro acc; rfl
  | cons a t ih =>
    intro acc
    by_cases ht : a.typ = "ipv4"
    · have hip : a.ip ≠ "" := h a (by simp)
      have hcond : (a.typ == "ipv4" && "" == "") = true := by
        simp [ht]
      simp only [extractIPsLoop, hcond, if_true]
      rw [extractIPsLoop_fst_ne t _ _ hip]
      simp [List.find?_cons_of_pos, ht]
    · have hcond : (a.typ == "ipv4" && "" == "") = false := by
        simp [ht]
      simp only [extractIPsLoop, hcond, Bool.false_eq_true, if_false]
      rw [ih (fun i hi => h i (List.mem_cons_of_mem _ hi)) _]
      rw [List.find?_cons_of_neg _ (by simp [ht])]

/-- `extractIPs` under nonempty address strings: the summary rule of the
claim, alongside the full address list. -/
theorem extractIPs_eq (ips : List AgentIP) (h : ∀ i ∈ ips, i.ip ≠ "") :
    extractIPs ips = (summaryIP ips, ips.map (fun i => i.ip)) := by
  have h2 := extractIPsLoop_snd ips "" []
  have h1 := extractIPsLoop_fst_empty ips h []
  rcases hf : ips.find? (fun i => i.typ == "ipv4") with _ | i
  · rw [hf] at h1
    have hprod : extractIPsLoop ips "" [] =
        ("", ips.map (fun i => i.ip)) := by
      refine Prod.ext ?_ ?_
      · simpa using h1
      · simpa using h2
    rcases ips with _ | ⟨a, t⟩
    · simp [extractIPs, extractIPsLoop, summaryIP]
    · unfold extractIPs
      rw [hprod]
      simp [summaryIP, hf]
  · have hine : i.ip ≠ "" := h i (List.mem_of_find?_eq_some hf)
    rw [hf] at h1
    have hprod : extractIPsLoop ips "" [] =
        (i.ip, ips.map (fun i => i.ip)) := by
      refine Prod.ext ?_ ?_
      · simpa using h1
      · simpa using h2
    unfold extractIPs
    rw [hprod]
    simp [summaryIP, hf, hine]

/-- `List.lookup` over the MAC-to-alias pair list is `find?` by MAC. -/
theorem lookup_map_pair (dom : List DomIface) (mac : String) :
    (dom.map (fun d => (d.mac, d.aliasName))).lookup mac =
      (dom.find? (fun d => d.mac == mac)).map (fun d => d.aliasName) := by
  induction dom with
  | nil => rfl
  | cons d t ih =>
    by_cases hk : mac = d.mac
    · subst hk
      simp [List.lookup, List.find?]
    · have h1 : (mac == d.mac) = false := by
        simp [hk]
      have h2 : (d.mac == mac) = false := by
        simp [Ne.symm hk]
      simp [List.lookup, List.find?, h1, h2, ih]

end agentpoller

namespace agentpoller

/-- `List.lookup` skips a block in which the key is absent. -/
theorem lookup_append_of_none {a : String} {l1 : List (String × String)}
    (l2 : List (String × String)) (h : l1.lookup a = none) :
    (l1 ++ l2).lookup a = l2.lookup a := by
  induction l1 with
  | nil => rfl
  | cons p t ih =>
    rcases p with ⟨k, v⟩
    by_cases hk : (a == k) = true
    · simp [List.lookup, hk] at h
    · have hkf : (a == k) = false := by
        rwa [Bool.not_eq_true] at hk
      simp only [List.lookup, hkf] at h
      simp only [List.cons_append, List.lookup, hkf]
      exact ih h

/-- Inserting a fresh key into the alias map appends the pair. -/
theorem insertAlias_append {m : List (String × String)} {k v : String}
    (h : m.lookup k = none) : insertAlias m k v = m ++ [(k, v)] := by
  simp [insertAlias, h]

/-- With pairwise distinct hypervisor MACs the alias map, in insertion
order, is exactly the MAC/alias pair list. -/
theorem foldl_insertAlias (dom : List DomIface) :
    ∀ acc : List (String × String),
      (∀ d ∈ dom, acc.lookup d.mac = none) →
      (dom.map (fun d => d.mac)).Nodup →
      dom.foldl (fun m ifc => insertAlias m ifc.mac ifc.aliasName) acc =
        acc ++ dom.map (fun d => (d.mac, d.aliasName)) := by
  induction dom with
  | nil => intro acc _ _; simp
  | cons d t ih =>
    intro acc hnone hnd
    have h1 : acc.lookup d.mac = none := hnone d (by simp)
    have hstep : insertAlias acc d.mac d.aliasName = acc ++ [(d.mac, d.aliasName)] :=
      insertAlias_append h1
    rw [List.foldl_cons, hstep]
    have hnd2 : (t.map (fun d => d.mac)).Nodup := (List.nodup_cons.mp (by simpa using hnd)).2
    have hdnotin : d.mac ∉ t.map (fun x => x.mac) :=
      (List.nodup_cons.mp (by simpa using hnd)).1
    rw [ih (acc ++ [(d.mac, d.aliasName)]) ?_ hnd2]
    · simp
    · intro d2 hd2
      have hne : (d2.mac == d.mac) = false := by
        have : d2.mac ≠ d.mac := by
          intro he
          exact hdnotin (he ▸ List.mem_map_of_mem _ hd2)
        simp [this]
      rw [lookup_append_of_none _ (hnone d2 (List.mem_cons_of_mem _ hd2))]
      simp [List.lookup, hne]

/-- `buildAliasByMac` under distinct MACs. -/
theorem buildAliasByMac_eq (dom : List DomIface)
    (h : (dom.map (fun d => d.mac)).Nodup) :
    buildAliasByMac dom = dom.map (fun d => (d.mac, d.aliasName)) := by
  have := foldl_insertAlias dom [] (by intro d _; rfl) h
  simpa [buildAliasByMac] using this

/-- The marking loop: a map over the statuses plus the covered-alias
list, which is the in-order partial map of the successful lookups. -/
theorem markStatuses_eq (m : List (String × String)) (sts : List InterfaceStatus) :
    markStatuses m sts =
      (sts.map (fun st =>
         match m.lookup st.mac with
         | some al => { st with name := al, infoSource := infoSourceDomainAndGA }
         | none => { st with infoSource := infoSourceGuestAgent }),
       sts.filterMap (fun st => m.lookup st.mac)) := by
  induction sts with
  | nil => rfl
  | cons st t ih =>
    rcases hl : m.lookup st.mac with _ | al <;>
      simp [markStatuses, hl, ih, List.filterMap_cons]

/-- The appending loop: the accumulator followed by a `Domain` record for
every uncovered map entry. -/
theorem appendUncovered_eq (covered : List String) :
    ∀ (m : List (String × String)) (acc : List InterfaceStatus),
      appendUncovered covered m acc =
        acc ++ (m.filter (fun p => !covered.contains p.2)).map
          (fun p => { mac := p.1, name := p.2, infoSource := infoSourceDomain }) := by
  intro m
  induction m with
  | nil => intro acc; simp [appendUncovered]
  | cons p t ih =>
    intro acc
    have hstep : appendUncovered covered (p :: t) acc =
        appendUncovered covered t
          (if covered.contains p.2 then acc
           else acc ++ [{ mac := p.1, name := p.2, infoSource := infoSourceDomain }]) := rfl
    rw [hstep, ih]
    by_cases hc : covered.contains p.2 = true
    · have hmem : p.2 ∈ covered := by simpa using hc
      simp [hmem, List.filter_cons]
    · have hmem : p.2 ∉ covered := by simpa using hc
      simp [hmem, List.filter_cons]

end agentpoller

namespace agentpoller

/-- With pairwise-distinct hypervisor MACs and aliases, an alias is
covered by agent data iff some surviving agent entry reported that
hypervisor interface's MAC. -/
theorem covered_iff (dom : List DomIface) (kept : List AgentIface)
    (hmac : (dom.map (fun d => d.mac)).Nodup)
    (halias : (dom.map (fun d => d.aliasName)).Nodup)
    (d : DomIface) (hd : d ∈ dom) :
    d.aliasName ∈ kept.filterMap
        (fun a => (dom.find? (fun x => x.mac == a.mac)).map
          (fun x => x.aliasName)) ↔
      ∃ a ∈ kept, a.mac = d.mac := by
  constructor
  · intro h
    obtain ⟨a, ha, hfa⟩ := List.mem_filterMap.mp h
    rcases hdo : dom.find? (fun x => x.mac == a.mac) with _ | d0
    · rw [hdo] at hfa
      cases hfa
    · rw [hdo] at hfa
      have hali : d0.aliasName = d.aliasName := by
        simpa using hfa
      have hd0mem : d0 ∈ dom := List.mem_of_find?_eq_some hdo
      have hpd0 : (d0.mac == a.mac) = true := by
        have := List.find?_some hdo
        simpa using this
      have hde : d0 = d := List.inj_on_of_nodup_map halias hd0mem hd hali
      exact ⟨a, ha, by rw [← hde]; exact (beq_iff_eq.mp hpd0).symm⟩
  · rintro ⟨a, ha, hamac⟩
    have hsome : (dom.find? (fun x => x.mac == a.mac)).isSome := by
      rw [List.find?_isSome]
      exact ⟨d, hd, by simp [hamac]⟩
    obtain ⟨d0, hfd0⟩ := Option.isSome_iff_exists.mp hsome
    have hd0mem := List.mem_of_find?_eq_some hfd0
    have hpd0 : (d0.mac == a.mac) = true := by
      have := List.find?_some hfd0
      simpa using this
    have hde : d0 = d := List.inj_on_of_nodup_map hmac hd0mem hd
      (by rw [beq_iff_eq.mp hpd0, hamac])
    refine List.mem_filterMap.mpr ⟨a, ha, ?_⟩
    rw [hfd0, hde]
    rfl

/-- Pointwise-equal partial maps filter-map equally. -/
theorem filterMap_congr_fun {α β : Type} {f g : α → Option β} :
    ∀ (l : List α), (∀ a ∈ l, f a = g a) → l.filterMap f = l.filterMap g
  | [], _ => rfl
  | a :: t, h => by
    have h1 := h a (by simp)
    have ht := filterMap_congr_fun t (fun x hx => h x (List.mem_cons_of_mem _ hx))
    simp [List.filterMap_cons, h1, ht]

/-- The covered-alias list in `find?` form. -/
theorem covered_simplify (dom : List DomIface) (kept : List AgentIface) :
    (kept.map (fun a =>
        { mac := a.mac, ip := (extractIPs a.ips).1,
          ips := (extractIPs a.ips).2,
          interfaceName := a.name : InterfaceStatus })).filterMap
      (fun st => (dom.map (fun d => (d.mac, d.aliasName))).lookup st.mac) =
    kept.filterMap (fun a => (dom.find? (fun x => x.mac == a.mac)).map
      (fun x => x.aliasName)) := by
  rw [List.filterMap_map]
  apply filterMap_congr_fun
  intro a _
  simp only [Function.comp]
  exact lookup_map_pair dom a.mac

/-- The appended `Domain` records equal the claim's description of them
when MACs and aliases are pairwise distinct. -/
theorem domPart_eq (dom : List DomIface) (kept : List AgentIface)
    (hmac : (dom.map (fun d => d.mac)).Nodup)
    (halias : (dom.map (fun d => d.aliasName)).Nodup) :
    ((dom.map (fun d => (d.mac, d.aliasName))).filter (fun p =>
        !(kept.filterMap (fun a => (dom.find? (fun x => x.mac == a.mac)).map
            (fun x => x.aliasName))).contains p.2)).map
      (fun p => { mac := p.1, name := p.2,
                  infoSource := infoSourceDomain : InterfaceStatus }) =
    (dom.filter (fun d => kept.all (fun a => a.mac != d.mac))).map
      (fun d => { name := d.aliasName, mac := d.mac,
                  infoSource := infoSourceDomain : InterfaceStatus }) := by
  rw [List.filter_map, List.map_map]
  have hfil : dom.filter ((fun p =>
        !(kept.filterMap (fun a => (dom.find? (fun x => x.mac == a.mac)).map
            (fun x => x.aliasName))).contains p.2) ∘
          (fun d => (d.mac, d.aliasName))) =
      dom.filter (fun d => kept.all (fun a => a.mac != d.mac)) := by
    apply List.filter_congr
    intro d hd
    simp only [Function.comp]
    rcases hc : (kept.filterMap (fun a =>
        (dom.find? (fun x => x.mac == a.mac)).map
          (fun x => x.aliasName))).contains d.aliasName with _ | _
    · have hnotmem : d.aliasName ∉ kept.filterMap (fun a =>
          (dom.find? (fun x => x.mac == a.mac)).map (fun x => x.aliasName)) := by
        simpa using hc
      have hnoex : ¬ ∃ a ∈ kept, a.mac = d.mac := fun hex =>
        hnotmem ((covered_iff dom kept hmac halias d hd).mpr hex)
      have hall : kept.all (fun a => a.mac != d.mac) = true := by
        rw [List.all_eq_true]
        intro a ha
        simp only [bne_iff_ne, ne_eq]
        exact fun he => hnoex ⟨a, ha, he⟩
      rw [hc, hall]
      rfl
    · have hmem : d.aliasName ∈ kept.filterMap (fun a =>
          (dom.find? (fun x => x.mac == a.mac)).map (fun x => x.aliasName)) := by
        simpa using hc
      obtain ⟨a, ha, hamac⟩ := (covered_iff dom kept hmac halias d hd).mp hmem
      have hall : kept.all (fun a => a.mac != d.mac) = false := by
        rcases hallv : kept.all (fun a => a.mac != d.mac) with _ | _
        · rfl
        · exfalso
          have := List.all_eq_true.mp hallv a ha
          rw [hamac] at this
          simp at this
      rw [hc, hall]
      rfl
  rw [hfil]
  apply List.map_eq_map_iff.mpr
  intro d _
  rfl

/-- C5 (amended): for hypervisor interfaces with pairwise-distinct MACs
and pairwise-distinct alias names, and agent data whose address strings
are nonempty, the merge pipeline produces exactly the claim's list:
loopback agent entries never appear; each surviving agent entry whose MAC
matches a hypervisor interface carries that interface's alias and the
DomainAndGuestAgent tag; each unmatched agent entry keeps its name under
the GuestAgent tag; each hypervisor interface not reported by any
surviving agent entry is appended as a Domain record without IP data; and
each entry's summary IP is its first IPv4 address, or its first address
of any family when no IPv4 address is present. -/
theorem merge_matches_spec_model (dom : List DomIface) (ag : List AgentIface)
    (hmac : (dom.map (fun d => d.mac)).Nodup)
    (halias : (dom.map (fun d => d.aliasName)).Nodup)
    (hips : ∀ a ∈ ag, ∀ i ∈ a.ips, i.ip ≠ "") :
    mergePipeline dom ag = mergeSpecModel dom ag := by
  simp only [mergePipeline, MergeAgentStatusesWithDomainData, mergeSpecModel]
  rw [convert_eq, buildAliasByMac_eq dom hmac, markStatuses_eq]
  dsimp only
  rw [appendUncovered_eq]
  rw [covered_simplify dom (ag.filter (fun a => a.name != "lo"))]
  congr 1
  · rw [List.map_map]
    apply List.map_eq_map_iff.mpr
    intro a ha
    have hipsa : ∀ i ∈ a.ips, i.ip ≠ "" :=
      hips a (List.mem_of_mem_filter ha)
    simp only [Function.comp, lookup_map_pair]
    rcases hfd : dom.find? (fun x => x.mac == a.mac) with _ | d0 <;>
      simp [hfd, extractIPs_eq a.ips hipsa]
  · exact domPart_eq dom (ag.filter (fun a => a.name != "lo")) hmac halias

end agentpoller

namespace agentpoller

/-- C5 witness: the spec's §8 merge example (one matched entry, one
agent-only entry, a loopback entry that must vanish). -/
theorem merge_matches_spec_model_witness :
    mergePipeline exampleDomIfaces exampleAgentIfaces =
      mergeSpecModel exampleDomIfaces exampleAgentIfaces :=
  merge_matches_spec_model exampleDomIfaces exampleAgentIfaces
    (by decide) (by decide) (by decide)

/-- C5 counterexample: two hypervisor interfaces share the alias `eth0`
and only the first is reported by the agent; the second (`bb`) is
matched by no agent entry, yet no record with its MAC appears in the
merged list — the covered-alias check works by alias, not by MAC, so
the claimed Domain record for `bb` is never appended. -/
theorem merge_drops_unmatched_dom_iface :
    dupAliasDomIfaces.map (fun d => d.mac) = ["aa", "bb"] ∧
    dupAliasAgentIfaces.all (fun a => a.mac != "bb") = true ∧
    (mergePipeline dupAliasDomIfaces dupAliasAgentIfaces).all
      (fun e => e.mac != "bb") = true := by
  decide

end agentpoller
